import Mathlib

/-!
Verification of the group-savings ledger backend (Express/Node controllers).

The definitions below are a shallow embedding of the ledger core:
`borrowingController.js` (borrow / repay / payFull), `savingsController.js`
(saveUnitsAndValidity / retroactiveFill), the standalone `runPenalties`
found in the group controller, and `adminController.js` (runPenalties /
deleteMember / resetAll).  MySQL rows become Lean structures, row sets
become lists in table order, `DECIMAL` money becomes `ℚ` with an explicit
2-decimal rounding (`round2`, the model of JS `+(x).toFixed(2)`), and
calendar timestamps become day indices (the code only ever compares whole
days).  Each handler is a function from the database state to
`Except Err (State × resp)`; an `Except.error` models the handler's
`conn.rollback()` path, so the pre-state is the state after a failure.
The admin-password comparison is modelled as the boolean
`credentialValid` capability, as the spec directs.
-/

namespace GroupSavings

/-- Rounds a rational to 2 decimal places, half up: the model of the
JavaScript idiom `+(x).toFixed(2)` used throughout the controllers. -/
def round2 (q : ℚ) : ℚ := (⌊q * 100 + 1/2⌋ : ℤ) / 100

/-- The two group pools (`pool_type` column). -/
inductive PoolType
  | MAIN
  | VALIDITY
deriving DecidableEq, Repr

/-- Status column of the `borrowing` table. -/
inductive BorrowStatus
  | OPEN
  | PAID
deriving DecidableEq, Repr

/-- `payment.type` column. -/
inductive PaymentType
  | UNIT
  | VALIDITY
  | FINE
  | DEBT_PAYMENT
deriving DecidableEq, Repr

/-- `transaction_log.transaction_type` column. -/
inductive TxType
  | SAVING
  | BORROW
  | REPAYMENT
  | PENALTY
  | FINE
  | GROUP_ADJUST
  | ADMIN_DELETE_MEMBER
  | ADMIN_RESET
deriving DecidableEq, Repr

/-- A row of the `borrowing` table.  Dates are day indices. -/
structure Borrowing where
  id : ℕ
  personId : ℕ
  poolType : PoolType
  principal : ℚ
  initialProfitAmount : ℚ
  outstandingAmount : ℚ
  status : BorrowStatus
  dueDate : ℕ
  lastPaymentAt : Option ℕ
  lastPenaltyAppliedAt : Option ℕ
deriving DecidableEq, Repr

/-- A row of the `personal_balance` table. -/
structure PersonalBalance where
  personId : ℕ
  mainSavingsBalance : ℚ
  validitySavingsBalance : ℚ
deriving DecidableEq, Repr

/-- The person's balance in the pool matching a `pool_type` (the ternary
on `poolType` at borrowingController.js line 85). -/
def PersonalBalance.poolBalance (r : PersonalBalance) : PoolType → ℚ
  | .MAIN => r.mainSavingsBalance
  | .VALIDITY => r.validitySavingsBalance

/-- The `group_pool` table: exactly two pre-seeded rows (MAIN, VALIDITY). -/
structure GroupPools where
  main : ℚ
  validity : ℚ
deriving DecidableEq, Repr

/-- Balance of the pool row for a given `pool_type`. -/
def GroupPools.get (g : GroupPools) : PoolType → ℚ
  | .MAIN => g.main
  | .VALIDITY => g.validity

/-- The SQL `UPDATE group_pool SET balance = balance + ? WHERE pool_type = ?`. -/
def GroupPools.add (g : GroupPools) : PoolType → ℚ → GroupPools
  | .MAIN, a => { g with main := g.main + a }
  | .VALIDITY, a => { g with validity := g.validity + a }

/-- A row of the `daily_summary` table (one per person and date). -/
structure DailySummary where
  personId : ℕ
  date : ℕ
  validityPaid : Bool
  unitsCount : ℕ
  fineAmount : ℚ
deriving DecidableEq, Repr

/-- A row of the `payment` table. -/
structure Payment where
  personId : ℕ
  type : PaymentType
  amount : ℚ
  effectiveDate : Option ℕ
  appliedToBorrowingId : Option ℕ
deriving DecidableEq, Repr

/-- A row of the `transaction_log` table (fields the claims mention). -/
structure TxEntry where
  personId : Option ℕ
  txType : TxType
  amount : ℚ
deriving DecidableEq, Repr

/-- The database state: each table as a list of rows in table order.
`nextBorrowingId` models the AUTO_INCREMENT key of `borrowing`. -/
structure State where
  people : List ℕ
  balances : List PersonalBalance
  pools : GroupPools
  borrowings : List Borrowing
  payments : List Payment
  summaries : List DailySummary
  txLog : List TxEntry
  nextBorrowingId : ℕ
deriving DecidableEq, Repr

/-- Failure outcomes of the handlers (the distinct `res.status(..).json`
error responses).  `overpayment` carries the true outstanding amount that
the code reports back. -/
inductive Err
  | invalidAmount
  | invalidUnits
  | noPersonalBalance
  | badCredential
  | insufficientSavedCount
  | openDebtExists
  | limitExceeded
  | insufficientGroupFunds
  | notFound
  | notOwner
  | notOpen
  | overpayment (outstandingAmount : ℚ)
  | dailyCapExceeded
  | dateNotPast
  | noChangeRequested
  | missingId
deriving DecidableEq, Repr

/-- `BORROW_INTEREST_PCT = 0.10` from borrowingController.js. -/
def BORROW_INTEREST_PCT : ℚ := 1/10

/-- Config defaults from savingsController.js (`UNIT_PRICE = 500`). -/
def UNIT_PRICE : ℚ := 500

/-- Config default `VALIDITY_FEE = 100`. -/
def VALIDITY_FEE : ℚ := 100

/-- Config default `FINE_AMOUNT = 500`. -/
def FINE_AMOUNT : ℚ := 500

/-- Borrow period per pool: `MAIN_PERIOD_DAYS = 30`, `VALIDITY_PERIOD_DAYS = 7`. -/
def periodDays : PoolType → ℕ
  | .MAIN => 30
  | .VALIDITY => 7

namespace State

/-- The query `SELECT * FROM personal_balance WHERE person_id = ?`. -/
def findBalance (st : State) (p : ℕ) : Option PersonalBalance :=
  st.balances.find? (fun r => r.personId == p)

/-- `UPDATE personal_balance SET main_savings_balance = main_savings_balance + ?`. -/
def creditMain (st : State) (p : ℕ) (amt : ℚ) : State :=
  { st with balances := st.balances.map fun r =>
      if r.personId = p then { r with mainSavingsBalance := r.mainSavingsBalance + amt } else r }

/-- `UPDATE personal_balance SET validity_savings_balance = validity_savings_balance + ?`. -/
def creditValidity (st : State) (p : ℕ) (amt : ℚ) : State :=
  { st with balances := st.balances.map fun r =>
      if r.personId = p then { r with validitySavingsBalance := r.validitySavingsBalance + amt } else r }

/-- `UPDATE group_pool SET balance = balance + ? WHERE pool_type = ?`. -/
def addPool (st : State) (pt : PoolType) (amt : ℚ) : State :=
  { st with pools := st.pools.add pt amt }

/-- `INSERT INTO payment ...`. -/
def addPayment (st : State) (pay : Payment) : State :=
  { st with payments := st.payments ++ [pay] }

/-- `INSERT INTO transaction_log ...`. -/
def addLog (st : State) (e : TxEntry) : State :=
  { st with txLog := st.txLog ++ [e] }

/-- The create-if-absent of a zeroed `personal_balance` row performed by
the savings handlers. -/
def ensureBalance (st : State) (p : ℕ) : State :=
  match st.findBalance p with
  | some _ => st
  | none => { st with balances := st.balances ++ [⟨p, 0, 0⟩] }

/-- The query `SELECT * FROM daily_summary WHERE person_id = ? AND date = ?`. -/
def findSummary (st : State) (p d : ℕ) : Option DailySummary :=
  st.summaries.find? (fun s => s.personId == p && s.date == d)

/-- `INSERT INTO daily_summary ...`. -/
def insertSummary (st : State) (s : DailySummary) : State :=
  { st with summaries := st.summaries ++ [s] }

/-- `UPDATE daily_summary ... WHERE id = ?` for the (person, date) row. -/
def updateSummary (st : State) (p d : ℕ) (f : DailySummary → DailySummary) : State :=
  { st with summaries := st.summaries.map fun s =>
      if s.personId = p ∧ s.date = d then f s else s }

/-- `UPDATE borrowing ... WHERE id = ?`. -/
def updateBorrowing (st : State) (i : ℕ) (f : Borrowing → Borrowing) : State :=
  { st with borrowings := st.borrowings.map (fun b => if b.id = i then f b else b) }

end State

/-- Success payload of `borrow`. -/
structure BorrowResp where
  borrowingId : ℕ
  outstanding : ℚ
  dueDate : ℕ
  adminOverride : Bool
deriving DecidableEq, Repr

/-- Success payload of `repay`. -/
structure RepayResp where
  newOutstanding : ℚ
  status : BorrowStatus
deriving DecidableEq, Repr

/-- Success payload of `payFull`. -/
structure PayFullResp where
  borrowingId : ℕ
  paidAmount : ℚ
deriving DecidableEq, Repr

/-- `POST /api/people/:id/borrow` (borrowingController.borrow).  Checks run
in source order: amount guard, personal-balance lookup, admin-password
validation, saved-count (≥ 3 UNIT payments), open-debt-in-same-pool,
130% personal limit, then the always-enforced group-funds check; on
success it inserts the OPEN borrowing, debits the pool by the principal
and appends the BORROW log entry. -/
def borrow (st : State) (today personId : ℕ) (poolType : PoolType) (amt : ℚ)
    (adminOverride credentialValid : Bool) : Except Err (State × BorrowResp) :=
  if amt ≤ 0 then .error .invalidAmount else
  match st.findBalance personId with
  | none => .error .noPersonalBalance
  | some personal =>
    if adminOverride ∧ ¬credentialValid then .error .badCredential else
    let isAdminOverride := adminOverride
    let savedCount := (st.payments.filter fun q => decide (q.personId = personId ∧ q.type = .UNIT)).length
    if ¬isAdminOverride ∧ savedCount < 3 then .error .insufficientSavedCount else
    let openCount := (st.borrowings.filter fun b =>
      decide (b.personId = personId ∧ b.status = .OPEN ∧ b.poolType = poolType)).length
    if ¬isAdminOverride ∧ 0 < openCount then .error .openDebtExists else
    let allowedLimit := round2 (personal.poolBalance poolType * (13/10))
    if ¬isAdminOverride ∧ allowedLimit < amt then .error .limitExceeded else
    let groupBalance := st.pools.get poolType
    if groupBalance < amt then .error .insufficientGroupFunds else
    let profit := round2 (amt * BORROW_INTEREST_PCT)
    let outstanding := round2 (amt + profit)
    let dueDate := today + periodDays poolType
    let nb : Borrowing :=
      ⟨st.nextBorrowingId, personId, poolType, amt, profit, outstanding, .OPEN, dueDate, none, none⟩
    let st1 : State := { st with
      borrowings := st.borrowings ++ [nb],
      nextBorrowingId := st.nextBorrowingId + 1 }
    let st2 := st1.addPool poolType (-amt)
    let st3 := st2.addLog ⟨some personId, .BORROW, amt⟩
    .ok (st3, ⟨nb.id, outstanding, dueDate, isAdminOverride⟩)

/-- `POST /api/people/:id/repay` (borrowingController.repay).  Guards in
source order: amount, borrowing lookup by id, ownership, OPEN status,
overpayment; on success decrements outstanding (PAID exactly when the new
outstanding is 0), credits the pool by the repayment, and appends the
DEBT_PAYMENT payment and REPAYMENT log rows. -/
def repay (st : State) (today personId borrowingId : ℕ) (amt : ℚ) :
    Except Err (State × RepayResp) :=
  if amt ≤ 0 then .error .invalidAmount else
  match st.borrowings.find? (fun b => b.id == borrowingId) with
  | none => .error .notFound
  | some b =>
    if b.personId ≠ personId then .error .notOwner else
    if b.status ≠ .OPEN then .error .notOpen else
    let outstanding := b.outstandingAmount
    if outstanding < amt then .error (.overpayment outstanding) else
    let newOutstanding := round2 (outstanding - amt)
    let newStatus : BorrowStatus := if newOutstanding = 0 then .PAID else .OPEN
    let st1 := st.updateBorrowing borrowingId fun x =>
      { x with outstandingAmount := newOutstanding, status := newStatus, lastPaymentAt := some today }
    let st2 := st1.addPool b.poolType amt
    let st3 := st2.addPayment ⟨personId, .DEBT_PAYMENT, amt, none, some borrowingId⟩
    let st4 := st3.addLog ⟨some personId, .REPAYMENT, amt⟩
    .ok (st4, ⟨newOutstanding, newStatus⟩)

/-- `POST /api/people/:id/pay_full` (borrowingController.payFull).  Takes
the first row of `SELECT * FROM borrowing WHERE person_id = ? AND
pool_type = ? AND status = "OPEN"`, zeroes it, marks it PAID, credits the
pool by its whole outstanding amount and appends payment and log rows. -/
def payFull (st : State) (today personId : ℕ) (poolType : PoolType) :
    Except Err (State × PayFullResp) :=
  match st.borrowings.find? (fun b =>
      decide (b.personId = personId ∧ b.poolType = poolType ∧ b.status = .OPEN)) with
  | none => .error .notFound
  | some b =>
    let outstanding := b.outstandingAmount
    let st1 := st.updateBorrowing b.id fun x =>
      { x with outstandingAmount := 0, status := .PAID, lastPaymentAt := some today }
    let st2 := st1.addPool poolType outstanding
    let st3 := st2.addPayment ⟨personId, .DEBT_PAYMENT, outstanding, none, some b.id⟩
    let st4 := st3.addLog ⟨some personId, .REPAYMENT, outstanding⟩
    .ok (st4, ⟨b.id, outstanding⟩)


/-- Success payload of `saveUnitsAndValidity`. -/
structure SaveResp where
  appliedUnits : ℕ
  appliedUnitsAmount : ℚ
  appliedValidityAmount : ℚ
deriving DecidableEq, Repr

/-- Success payload of `retroactiveFill`. -/
structure RetroResp where
  appliedUnits : ℕ
  appliedUnitsAmount : ℚ
  appliedValidityAmount : ℚ
  fineApplied : ℚ
deriving DecidableEq, Repr

/-- The three statements applying a validity fee: credit the person's
validity balance, insert the VALIDITY payment row, credit GroupPool[VALIDITY]. -/
def applyValidityFee (st : State) (p d : ℕ) : State :=
  ((st.creditValidity p VALIDITY_FEE).addPayment
    ⟨p, .VALIDITY, VALIDITY_FEE, some d, none⟩).addPool .VALIDITY VALIDITY_FEE

/-- The three statements applying a unit purchase: credit the person's
main balance, insert the UNIT payment row, credit GroupPool[MAIN]. -/
def applyUnitsAmount (st : State) (p d u : ℕ) : State :=
  let amtU := round2 ((u : ℚ) * UNIT_PRICE)
  ((st.creditMain p amtU).addPayment ⟨p, .UNIT, amtU, some d, none⟩).addPool .MAIN amtU

/-- Tail of `saveUnitsAndValidity`: compute the applied amounts and insert
the single SAVING log entry only when something was actually applied. -/
def saveFinish (st : State) (p : ℕ) (appliedUnits : ℕ) (appliedValidityAmount : ℚ) :
    Except Err (State × SaveResp) :=
  let appliedUnitsAmount := round2 ((appliedUnits : ℚ) * UNIT_PRICE)
  let savedAmount := round2 (appliedUnitsAmount + appliedValidityAmount)
  let stF := if 0 < savedAmount then st.addLog ⟨some p, .SAVING, savedAmount⟩ else st
  .ok (stF, ⟨appliedUnits, appliedUnitsAmount, appliedValidityAmount⟩)

/-- The `!daily` branch of saveUnitsAndValidity: insert the new
daily-summary row, then apply validity and units as requested. -/
def saveNewDay (st0 : State) (p date u : ℕ) (pv : Bool) : Except Err (State × SaveResp) :=
  let st1 := st0.insertSummary ⟨p, date, pv, u, 0⟩
  let stv := if pv then applyValidityFee st1 p date else st1
  let appliedValidity : ℚ := if pv then VALIDITY_FEE else 0
  let stu := if 0 < u then applyUnitsAmount stv p date u else stv
  let appliedUnits := if 0 < u then u else 0
  saveFinish stu p appliedUnits appliedValidity

/-- The existing-record branch of saveUnitsAndValidity: validity only if
not already paid for that date, then the daily 4-unit cap check (its
failure rolls the transaction back), then the units. -/
def saveExistingDay (st0 : State) (p date u : ℕ) (pv : Bool) (daily : DailySummary) :
    Except Err (State × SaveResp) :=
  let doValidity := pv ∧ ¬daily.validityPaid
  let stv := if doValidity then
      applyValidityFee (st0.updateSummary p date fun s2 => { s2 with validityPaid := true }) p date
    else st0
  let appliedValidity : ℚ := if doValidity then VALIDITY_FEE else 0
  if 4 < daily.unitsCount + u then .error .dailyCapExceeded else
  let stu := if 0 < u then
      applyUnitsAmount (stv.updateSummary p date fun s2 =>
        { s2 with unitsCount := s2.unitsCount + u }) p date u
    else stv
  let appliedUnits := if 0 < u then u else 0
  saveFinish stu p appliedUnits appliedValidity

/-- `POST /api/people/:id/save` (savingsController.saveUnitsAndValidity).
Follows the source: units range guard, create-if-absent balance row, then
the missing-day or existing-day branch on the (person, date) summary. -/
def save (st : State) (today personId : ℕ) (units : ℕ) (payValidity : Bool)
    (effectiveDate : Option ℕ) : Except Err (State × SaveResp) :=
  let date := effectiveDate.getD today
  if 4 < units then .error .invalidUnits else
  let st0 := st.ensureBalance personId
  match st0.findSummary personId date with
  | none => saveNewDay st0 personId date units payValidity
  | some daily => saveExistingDay st0 personId date units payValidity daily

/-- Tail of `retroactiveFill`: the fine's pool credit / payment / log when
a fine was charged, then the SAVING log entry only when anything applied. -/
def retroFinish (st : State) (p d : ℕ) (appliedUnits : ℕ)
    (appliedValidityAmount fineToCharge : ℚ) : Except Err (State × RetroResp) :=
  let appliedUnitsAmount := if 0 < appliedUnits then round2 ((appliedUnits : ℚ) * UNIT_PRICE) else 0
  let st1 := if 0 < fineToCharge then
      (((st.addPool .MAIN fineToCharge).addPayment ⟨p, .FINE, fineToCharge, some d, none⟩).addLog
        ⟨some p, .FINE, fineToCharge⟩)
    else st
  let totalApplied := round2 (appliedUnitsAmount + appliedValidityAmount + fineToCharge)
  let st2 := if 0 < totalApplied then st1.addLog ⟨some p, .SAVING, totalApplied⟩ else st1
  .ok (st2, ⟨appliedUnits, appliedUnitsAmount, appliedValidityAmount, fineToCharge⟩)

/-- The missing-day branch of retroactiveFill: a fine is charged only
when units are actually added; inserts the summary and applies
validity/units. -/
def retroNewDay (st0 : State) (p date u : ℕ) (pv : Bool) : Except Err (State × RetroResp) :=
  let fineToCharge : ℚ := if 0 < u then FINE_AMOUNT else 0
  let st1 := st0.insertSummary ⟨p, date, pv, u, fineToCharge⟩
  let stv := if pv then applyValidityFee st1 p date else st1
  let appliedValidity : ℚ := if pv then VALIDITY_FEE else 0
  let stu := if 0 < u then applyUnitsAmount stv p date u else stv
  let appliedUnits := if 0 < u then u else 0
  retroFinish stu p date appliedUnits appliedValidity fineToCharge

/-- The existing-day branch of retroactiveFill: daily-cap check first
(rollback on excess), fine only when units are added, validity only if
missing. -/
def retroExistingDay (st0 : State) (p date u : ℕ) (pv : Bool) (daily : DailySummary) :
    Except Err (State × RetroResp) :=
  if 4 < daily.unitsCount + u then .error .dailyCapExceeded else
  let fineToCharge : ℚ := if 0 < u then FINE_AMOUNT else 0
  let st1 := st0.updateSummary p date fun s2 =>
    { s2 with unitsCount := s2.unitsCount + u, fineAmount := s2.fineAmount + fineToCharge }
  let doValidity := pv ∧ ¬daily.validityPaid
  let stv := if doValidity then
      applyValidityFee (st1.updateSummary p date fun s2 => { s2 with validityPaid := true }) p date
    else st1
  let appliedValidity : ℚ := if doValidity then VALIDITY_FEE else 0
  let stu := if 0 < u then applyUnitsAmount stv p date u else stv
  let appliedUnits := if 0 < u then u else 0
  retroFinish stu p date appliedUnits appliedValidity fineToCharge

/-- `POST /api/people/:id/retroactive` (savingsController.retroactiveFill).
Guards in source order: past date, addUnits range, no-op guard; then the
missing-day or existing-day branch on the (person, date) summary. -/
def retroactiveFill (st : State) (today personId date : ℕ) (addUnits : ℕ)
    (payValidityIfMissing : Bool) : Except Err (State × RetroResp) :=
  if today ≤ date then .error .dateNotPast else
  if 4 < addUnits then .error .invalidUnits else
  if addUnits = 0 ∧ ¬payValidityIfMissing then .error .noChangeRequested else
  let st0 := st.ensureBalance personId
  match st0.findSummary personId date with
  | none => retroNewDay st0 personId date addUnits payValidityIfMissing
  | some daily => retroExistingDay st0 personId date addUnits payValidityIfMissing daily

/-- The by-hand loop of the adminController sweep:
`for (let i = 0; i < periods; i++) newOutstanding = +(newOutstanding * 1.10).toFixed(2)` —
10% compounded with rounding applied after every period. -/
def compoundPerPeriod : ℕ → ℚ → ℚ
  | 0, x => x
  | n + 1, x => compoundPerPeriod n (round2 (x * (11/10)))

/-- Per-row computation of the standalone `runPenalties` (group
controller): skip unless past due; periods = whole elapsed days since
`last_penalty_applied_at` (or the due date) divided by the pool period
(30 MAIN / 7 VALIDITY); skip at zero periods; otherwise compound by
`1.1 ^ fullPeriods` and round to 2 decimals once at the end.
Returns `none` for a skipped row. -/
def standaloneRowNew (nowDay : ℕ) (b : Borrowing) : Option Borrowing :=
  if nowDay ≤ b.dueDate then none else
  let lastApplied := b.lastPenaltyAppliedAt.getD b.dueDate
  let daysSince := nowDay - lastApplied
  let fullPeriods := daysSince / periodDays b.poolType
  if fullPeriods = 0 then none else
  some { b with
    outstandingAmount := round2 (b.outstandingAmount * (11/10) ^ fullPeriods),
    lastPenaltyAppliedAt := some nowDay }

/-- Per-row computation of adminController.runPenalties (the handler wired
to `POST /api/admin/penalties/run`): same skip conditions, but
`periodDays = 30` for every pool type, and the outstanding is compounded
by the per-period rounding loop. -/
def adminRowNew (nowDay : ℕ) (b : Borrowing) : Option Borrowing :=
  if nowDay ≤ b.dueDate then none else
  let lastApplied := b.lastPenaltyAppliedAt.getD b.dueDate
  let elapsedDays := nowDay - lastApplied
  let periods := elapsedDays / 30
  if periods = 0 then none else
  some { b with
    outstandingAmount := compoundPerPeriod periods b.outstandingAmount,
    lastPenaltyAppliedAt := some nowDay }

/-- One iteration of a sweep loop over a row `b` of the pre-loop
`SELECT ... FOR UPDATE` snapshot: when the row is penalized, run
`UPDATE borrowing SET outstanding_amount = ?, last_penalty_applied_at = ? WHERE id = ?`
and insert the PENALTY log entry with the delta amount. -/
def sweepStep (rowNew : Borrowing → Option Borrowing) (st : State) (b : Borrowing) : State :=
  match rowNew b with
  | none => st
  | some b2 =>
    (st.updateBorrowing b.id fun x =>
      { x with outstandingAmount := b2.outstandingAmount,
               lastPenaltyAppliedAt := b2.lastPenaltyAppliedAt }).addLog
      ⟨some b.personId, .PENALTY, round2 (b2.outstandingAmount - b.outstandingAmount)⟩

/-- A sweep: loop over the snapshot `SELECT * FROM borrowing WHERE status = "OPEN"`. -/
def sweepRun (rowNew : Borrowing → Option Borrowing) (st : State) : State :=
  (st.borrowings.filter fun b => decide (b.status = .OPEN)).foldl (sweepStep rowNew) st

/-- The standalone `runPenalties` of the group controller. -/
def runPenaltiesStandalone (nowDay : ℕ) (st : State) : State :=
  sweepRun (standaloneRowNew nowDay) st

/-- adminController.runPenalties, the sweep reachable through
`router.post('/admin/penalties/run', adminCtrl.runPenalties)`. -/
def runPenaltiesAdmin (nowDay : ℕ) (st : State) : State :=
  sweepRun (adminRowNew nowDay) st

/-- adminController.deleteMember: credential gate, person lookup, then
best-effort deletion of all dependent rows followed by the person row and
an ADMIN_DELETE_MEMBER system log entry (personId null). -/
def deleteMember (st : State) (personId : ℕ) (credentialValid : Bool) :
    Except Err (State × Unit) :=
  if ¬credentialValid then .error .badCredential else
  if personId = 0 then .error .missingId else
  match st.people.find? (fun q => q == personId) with
  | none => .error .notFound
  | some _ => .ok ({ st with
      txLog := (st.txLog.filter fun e => decide (e.personId ≠ some personId)) ++
        [⟨none, .ADMIN_DELETE_MEMBER, 0⟩],
      payments := st.payments.filter fun q => decide (q.personId ≠ personId),
      borrowings := st.borrowings.filter fun b => decide (b.personId ≠ personId),
      summaries := st.summaries.filter fun s2 => decide (s2.personId ≠ personId),
      balances := st.balances.filter fun r => decide (r.personId ≠ personId),
      people := st.people.filter fun q => decide (q ≠ personId) }, ())

/-- adminController.resetAll: credential gate, then truncate the log,
borrowings, payments and summaries, zero every personal balance and both
pools, and record the single ADMIN_RESET entry. -/
def resetAll (st : State) (credentialValid : Bool) : Except Err (State × Unit) :=
  if ¬credentialValid then .error .badCredential else
  .ok ({ st with
    txLog := [⟨none, .ADMIN_RESET, 0⟩],
    borrowings := [],
    payments := [],
    summaries := [],
    balances := st.balances.map fun r =>
      { r with mainSavingsBalance := 0, validitySavingsBalance := 0 },
    pools := ⟨0, 0⟩ }, ())

/-- The mutating operations of the ledger core, for stating reachability
and invariant-preservation claims. -/
inductive Op
  | saveOp (today personId units : ℕ) (payValidity : Bool) (effectiveDate : Option ℕ)
  | retroOp (today personId date addUnits : ℕ) (payValidityIfMissing : Bool)
  | borrowOp (today personId : ℕ) (poolType : PoolType) (amt : ℚ)
      (adminOverride credentialValid : Bool)
  | repayOp (today personId borrowingId : ℕ) (amt : ℚ)
  | payFullOp (today personId : ℕ) (poolType : PoolType)
  | penaltiesStandaloneOp (nowDay : ℕ)
  | penaltiesAdminOp (nowDay : ℕ)
  | deleteMemberOp (personId : ℕ) (credentialValid : Bool)
  | resetAllOp (credentialValid : Bool)
deriving DecidableEq

/-- Executes one operation against the store: the committed state on
success, the rolled-back (unchanged) state on any failure. -/
def run (op : Op) (st : State) : State :=
  match op with
  | .saveOp t p u pv d =>
    match save st t p u pv d with
    | .ok (st2, _) => st2
    | .error _ => st
  | .retroOp t p d u pv =>
    match retroactiveFill st t p d u pv with
    | .ok (st2, _) => st2
    | .error _ => st
  | .borrowOp t p pt a ov cv =>
    match borrow st t p pt a ov cv with
    | .ok (st2, _) => st2
    | .error _ => st
  | .repayOp t p b a =>
    match repay st t p b a with
    | .ok (st2, _) => st2
    | .error _ => st
  | .payFullOp t p pt =>
    match payFull st t p pt with
    | .ok (st2, _) => st2
    | .error _ => st
  | .penaltiesStandaloneOp n => runPenaltiesStandalone n st
  | .penaltiesAdminOp n => runPenaltiesAdmin n st
  | .deleteMemberOp p cv =>
    match deleteMember st p cv with
    | .ok (st2, _) => st2
    | .error _ => st
  | .resetAllOp cv =>
    match resetAll st cv with
    | .ok (st2, _) => st2
    | .error _ => st


/-! ### Projection lemmas for the state helpers -/
namespace State
@[simp] lemma creditMain_people (st : State) (p : ℕ) (a : ℚ) :
    (st.creditMain p a).people = st.people := rfl
@[simp] lemma creditMain_pools (st : State) (p : ℕ) (a : ℚ) :
    (st.creditMain p a).pools = st.pools := rfl
@[simp] lemma creditMain_borrowings (st : State) (p : ℕ) (a : ℚ) :
    (st.creditMain p a).borrowings = st.borrowings := rfl
@[simp] lemma creditMain_payments (st : State) (p : ℕ) (a : ℚ) :
    (st.creditMain p a).payments = st.payments := rfl
@[simp] lemma creditMain_summaries (st : State) (p : ℕ) (a : ℚ) :
    (st.creditMain p a).summaries = st.summaries := rfl
@[simp] lemma creditMain_txLog (st : State) (p : ℕ) (a : ℚ) :
    (st.creditMain p a).txLog = st.txLog := rfl
@[simp] lemma creditMain_nextBorrowingId (st : State) (p : ℕ) (a : ℚ) :
    (st.creditMain p a).nextBorrowingId = st.nextBorrowingId := rfl
@[simp] lemma creditValidity_people (st : State) (p : ℕ) (a : ℚ) :
    (st.creditValidity p a).people = st.people := rfl
@[simp] lemma creditValidity_pools (st : State) (p : ℕ) (a : ℚ) :
    (st.creditValidity p a).pools = st.pools := rfl
@[simp] lemma creditValidity_borrowings (st : State) (p : ℕ) (a : ℚ) :
    (st.creditValidity p a).borrowings = st.borrowings := rfl
@[simp] lemma creditValidity_payments (st : State) (p : ℕ) (a : ℚ) :
    (st.creditValidity p a).payments = st.payments := rfl
@[simp] lemma creditValidity_summaries (st : State) (p : ℕ) (a : ℚ) :
    (st.creditValidity p a).summaries = st.summaries := rfl
@[simp] lemma creditValidity_txLog (st : State) (p : ℕ) (a : ℚ) :
    (st.creditValidity p a).txLog = st.txLog := rfl
@[simp] lemma creditValidity_nextBorrowingId (st : State) (p : ℕ) (a : ℚ) :
    (st.creditValidity p a).nextBorrowingId = st.nextBorrowingId := rfl
@[simp] lemma addPool_people (st : State) (pt : PoolType) (a : ℚ) :
    (st.addPool pt a).people = st.people := rfl
@[simp] lemma addPool_balances (st : State) (pt : PoolType) (a : ℚ) :
    (st.addPool pt a).balances = st.balances := rfl
@[simp] lemma addPool_borrowings (st : State) (pt : PoolType) (a : ℚ) :
    (st.addPool pt a).borrowings = st.borrowings := rfl
@[simp] lemma addPool_payments (st : State) (pt : PoolType) (a : ℚ) :
    (st.addPool pt a).payments = st.payments := rfl
@[simp] lemma addPool_summaries (st : State) (pt : PoolType) (a : ℚ) :
    (st.addPool pt a).summaries = st.summaries := rfl
@[simp] lemma addPool_txLog (st : State) (pt : PoolType) (a : ℚ) :
    (st.addPool pt a).txLog = st.txLog := rfl
@[simp] lemma addPool_nextBorrowingId (st : State) (pt : PoolType) (a : ℚ) :
    (st.addPool pt a).nextBorrowingId = st.nextBorrowingId := rfl
@[simp] lemma addPayment_people (st : State) (q : Payment) :
    (st.addPayment q).people = st.people := rfl
@[simp] lemma addPayment_balances (st : State) (q : Payment) :
    (st.addPayment q).balances = st.balances := rfl
@[simp] lemma addPayment_pools (st : State) (q : Payment) :
    (st.addPayment q).pools = st.pools := rfl
@[simp] lemma addPayment_borrowings (st : State) (q : Payment) :
    (st.addPayment q).borrowings = st.borrowings := rfl
@[simp] lemma addPayment_summaries (st : State) (q : Payment) :
    (st.addPayment q).summaries = st.summaries := rfl
@[simp] lemma addPayment_txLog (st : State) (q : Payment) :
    (st.addPayment q).txLog = st.txLog := rfl
@[simp] lemma addPayment_nextBorrowingId (st : State) (q : Payment) :
    (st.addPayment q).nextBorrowingId = st.nextBorrowingId := rfl
@[simp] lemma addLog_people (st : State) (e : TxEntry) :
    (st.addLog e).people = st.people := rfl
@[simp] lemma addLog_balances (st : State) (e : TxEntry) :
    (st.addLog e).balances = st.balances := rfl
@[simp] lemma addLog_pools (st : State) (e : TxEntry) :
    (st.addLog e).pools = st.pools := rfl
@[simp] lemma addLog_borrowings (st : State) (e : TxEntry) :
    (st.addLog e).borrowings = st.borrowings := rfl
@[simp] lemma addLog_payments (st : State) (e : TxEntry) :
    (st.addLog e).payments = st.payments := rfl
@[simp] lemma addLog_summaries (st : State) (e : TxEntry) :
    (st.addLog e).summaries = st.summaries := rfl
@[simp] lemma addLog_nextBorrowingId (st : State) (e : TxEntry) :
    (st.addLog e).nextBorrowingId = st.nextBorrowingId := rfl
@[simp] lemma insertSummary_people (st : State) (s2 : DailySummary) :
    (st.insertSummary s2).people = st.people := rfl
@[simp] lemma insertSummary_balances (st : State) (s2 : DailySummary) :
    (st.insertSummary s2).balances = st.balances := rfl
@[simp] lemma insertSummary_pools (st : State) (s2 : DailySummary) :
    (st.insertSummary s2).pools = st.pools := rfl
@[simp] lemma insertSummary_borrowings (st : State) (s2 : DailySummary) :
    (st.insertSummary s2).borrowings = st.borrowings := rfl
@[simp] lemma insertSummary_payments (st : State) (s2 : DailySummary) :
    (st.insertSummary s2).payments = st.payments := rfl
@[simp] lemma insertSummary_txLog (st : State) (s2 : DailySummary) :
    (st.insertSummary s2).txLog = st.txLog := rfl
@[simp] lemma insertSummary_nextBorrowingId (st : State) (s2 : DailySummary) :
    (st.insertSummary s2).nextBorrowingId = st.nextBorrowingId := rfl
@[simp] lemma updateSummary_people (st : State) (p d : ℕ) (f : DailySummary → DailySummary) :
    (st.updateSummary p d f).people = st.people := rfl
@[simp] lemma updateSummary_balances (st : State) (p d : ℕ) (f : DailySummary → DailySummary) :
    (st.updateSummary p d f).balances = st.balances := rfl
@[simp] lemma updateSummary_pools (st : State) (p d : ℕ) (f : DailySummary → DailySummary) :
    (st.updateSummary p d f).pools = st.pools := rfl
@[simp] lemma updateSummary_borrowings (st : State) (p d : ℕ) (f : DailySummary → DailySummary) :
    (st.updateSummary p d f).borrowings = st.borrowings := rfl
@[simp] lemma updateSummary_payments (st : State) (p d : ℕ) (f : DailySummary → DailySummary) :
    (st.updateSummary p d f).payments = st.payments := rfl
@[simp] lemma updateSummary_txLog (st : State) (p d : ℕ) (f : DailySummary → DailySummary) :
    (st.updateSummary p d f).txLog = st.txLog := rfl
@[simp] lemma updateSummary_nextBorrowingId (st : State) (p d : ℕ) (f : DailySummary → DailySummary) :
    (st.updateSummary p d f).nextBorrowingId = st.nextBorrowingId := rfl
@[simp] lemma updateBorrowing_people (st : State) (i : ℕ) (f : Borrowing → Borrowing) :
    (st.updateBorrowing i f).people = st.people := rfl
@[simp] lemma updateBorrowing_balances (st : State) (i : ℕ) (f : Borrowing → Borrowing) :
    (st.updateBorrowing i f).balances = st.balances := rfl
@[simp] lemma updateBorrowing_pools (st : State) (i : ℕ) (f : Borrowing → Borrowing) :
    (st.updateBorrowing i f).pools = st.pools := rfl
@[simp] lemma updateBorrowing_payments (st : State) (i : ℕ) (f : Borrowing → Borrowing) :
    (st.updateBorrowing i f).payments = st.payments := rfl
@[simp] lemma updateBorrowing_summaries (st : State) (i : ℕ) (f : Borrowing → Borrowing) :
    (st.updateBorrowing i f).summaries = st.summaries := rfl
@[simp] lemma updateBorrowing_txLog (st : State) (i : ℕ) (f : Borrowing → Borrowing) :
    (st.updateBorrowing i f).txLog = st.txLog := rfl
@[simp] lemma updateBorrowing_nextBorrowingId (st : State) (i : ℕ) (f : Borrowing → Borrowing) :
    (st.updateBorrowing i f).nextBorrowingId = st.nextBorrowingId := rfl
@[simp] lemma creditMain_balances (st : State) (p : ℕ) (a : ℚ) :
    (st.creditMain p a).balances = st.balances.map fun r =>
      if r.personId = p then { r with mainSavingsBalance := r.mainSavingsBalance + a } else r := rfl

@[simp] lemma creditValidity_balances (st : State) (p : ℕ) (a : ℚ) :
    (st.creditValidity p a).balances = st.balances.map fun r =>
      if r.personId = p then { r with validitySavingsBalance := r.validitySavingsBalance + a } else r := rfl

@[simp] lemma addPool_pools (st : State) (pt : PoolType) (a : ℚ) :
    (st.addPool pt a).pools = st.pools.add pt a := rfl

@[simp] lemma addPayment_payments (st : State) (q : Payment) :
    (st.addPayment q).payments = st.payments ++ [q] := rfl

@[simp] lemma addLog_txLog (st : State) (e : TxEntry) :
    (st.addLog e).txLog = st.txLog ++ [e] := rfl

@[simp] lemma insertSummary_summaries (st : State) (s2 : DailySummary) :
    (st.insertSummary s2).summaries = st.summaries ++ [s2] := rfl

@[simp] lemma updateSummary_summaries (st : State) (p d : ℕ) (f : DailySummary → DailySummary) :
    (st.updateSummary p d f).summaries = st.summaries.map fun s2 =>
      if s2.personId = p ∧ s2.date = d then f s2 else s2 := rfl

@[simp] lemma updateBorrowing_borrowings (st : State) (i : ℕ) (f : Borrowing → Borrowing) :
    (st.updateBorrowing i f).borrowings = st.borrowings.map fun b =>
      if b.id = i then f b else b := rfl
@[simp] lemma ensureBalance_people (st : State) (p : ℕ) :
    (st.ensureBalance p).people = st.people := by
  unfold ensureBalance; cases st.findBalance p <;> rfl
@[simp] lemma ensureBalance_pools (st : State) (p : ℕ) :
    (st.ensureBalance p).pools = st.pools := by
  unfold ensureBalance; cases st.findBalance p <;> rfl
@[simp] lemma ensureBalance_borrowings (st : State) (p : ℕ) :
    (st.ensureBalance p).borrowings = st.borrowings := by
  unfold ensureBalance; cases st.findBalance p <;> rfl
@[simp] lemma ensureBalance_payments (st : State) (p : ℕ) :
    (st.ensureBalance p).payments = st.payments := by
  unfold ensureBalance; cases st.findBalance p <;> rfl
@[simp] lemma ensureBalance_summaries (st : State) (p : ℕ) :
    (st.ensureBalance p).summaries = st.summaries := by
  unfold ensureBalance; cases st.findBalance p <;> rfl
@[simp] lemma ensureBalance_txLog (st : State) (p : ℕ) :
    (st.ensureBalance p).txLog = st.txLog := by
  unfold ensureBalance; cases st.findBalance p <;> rfl
@[simp] lemma ensureBalance_nextBorrowingId (st : State) (p : ℕ) :
    (st.ensureBalance p).nextBorrowingId = st.nextBorrowingId := by
  unfold ensureBalance; cases st.findBalance p <;> rfl
end State

/-! ### Pool accounting lemmas -/

@[simp] lemma GroupPools.get_add_self (g : GroupPools) (pt : PoolType) (a : ℚ) :
    (g.add pt a).get pt = g.get pt + a := by
  cases pt <;> rfl

lemma GroupPools.get_add_other (g : GroupPools) (pt q : PoolType) (a : ℚ) (h : q ≠ pt) :
    (g.add pt a).get q = g.get q := by
  cases pt <;> cases q <;> first | rfl | exact absurd rfl h

/-! ### Projection lemmas for the composite savings helpers -/

@[simp] lemma applyValidityFee_borrowings (st : State) (p d : ℕ) :
    (applyValidityFee st p d).borrowings = st.borrowings := by
  simp [applyValidityFee]

@[simp] lemma applyValidityFee_nextBorrowingId (st : State) (p d : ℕ) :
    (applyValidityFee st p d).nextBorrowingId = st.nextBorrowingId := by
  simp [applyValidityFee]

@[simp] lemma applyUnitsAmount_borrowings (st : State) (p d u : ℕ) :
    (applyUnitsAmount st p d u).borrowings = st.borrowings := by
  simp [applyUnitsAmount]

@[simp] lemma applyUnitsAmount_nextBorrowingId (st : State) (p d u : ℕ) :
    (applyUnitsAmount st p d u).nextBorrowingId = st.nextBorrowingId := by
  simp [applyUnitsAmount]

/-! ### Savings operations never touch the borrowing table -/

lemma saveFinish_state {st st2 : State} {p aU : ℕ} {aV : ℚ} {r : SaveResp}
    (h : saveFinish st p aU aV = .ok (st2, r)) :
    st2.borrowings = st.borrowings ∧ st2.nextBorrowingId = st.nextBorrowingId := by
  simp only [saveFinish, Except.ok.injEq, Prod.mk.injEq] at h
  obtain ⟨h1, _⟩ := h
  subst h1
  constructor <;> split <;> simp

lemma retroFinish_state {st st2 : State} {p d aU : ℕ} {aV f : ℚ} {r : RetroResp}
    (h : retroFinish st p d aU aV f = .ok (st2, r)) :
    st2.borrowings = st.borrowings ∧ st2.nextBorrowingId = st.nextBorrowingId := by
  simp only [retroFinish, Except.ok.injEq, Prod.mk.injEq] at h
  obtain ⟨h1, _⟩ := h
  subst h1
  constructor <;> (repeat' split) <;> simp

lemma saveNewDay_state {st0 st2 : State} {p date u : ℕ} {pv : Bool} {r : SaveResp}
    (h : saveNewDay st0 p date u pv = .ok (st2, r)) :
    st2.borrowings = st0.borrowings ∧ st2.nextBorrowingId = st0.nextBorrowingId := by
  simp only [saveNewDay] at h
  obtain ⟨hb, hn⟩ := saveFinish_state h
  constructor
  · rw [hb]; repeat' split
    all_goals simp
  · rw [hn]; repeat' split
    all_goals simp

lemma saveExistingDay_state {st0 st2 : State} {p date u : ℕ} {pv : Bool}
    {daily : DailySummary} {r : SaveResp}
    (h : saveExistingDay st0 p date u pv daily = .ok (st2, r)) :
    st2.borrowings = st0.borrowings ∧ st2.nextBorrowingId = st0.nextBorrowingId := by
  simp only [saveExistingDay] at h
  split at h
  · exact Except.noConfusion h
  obtain ⟨hb, hn⟩ := saveFinish_state h
  constructor
  · rw [hb]; repeat' split
    all_goals simp
  · rw [hn]; repeat' split
    all_goals simp

lemma retroNewDay_state {st0 st2 : State} {p date u : ℕ} {pv : Bool} {r : RetroResp}
    (h : retroNewDay st0 p date u pv = .ok (st2, r)) :
    st2.borrowings = st0.borrowings ∧ st2.nextBorrowingId = st0.nextBorrowingId := by
  simp only [retroNewDay] at h
  obtain ⟨hb, hn⟩ := retroFinish_state h
  constructor
  · rw [hb]; repeat' split
    all_goals simp
  · rw [hn]; repeat' split
    all_goals simp

lemma retroExistingDay_state {st0 st2 : State} {p date u : ℕ} {pv : Bool}
    {daily : DailySummary} {r : RetroResp}
    (h : retroExistingDay st0 p date u pv daily = .ok (st2, r)) :
    st2.borrowings = st0.borrowings ∧ st2.nextBorrowingId = st0.nextBorrowingId := by
  simp only [retroExistingDay] at h
  split at h
  · exact Except.noConfusion h
  obtain ⟨hb, hn⟩ := retroFinish_state h
  constructor
  · rw [hb]; repeat' split
    all_goals simp
  · rw [hn]; repeat' split
    all_goals simp

lemma save_state {st st2 : State} {t p u : ℕ} {pv : Bool} {d : Option ℕ} {r : SaveResp}
    (h : save st t p u pv d = .ok (st2, r)) :
    st2.borrowings = st.borrowings ∧ st2.nextBorrowingId = st.nextBorrowingId := by
  simp only [save] at h
  split at h
  · exact Except.noConfusion h
  split at h
  · have := saveNewDay_state h
    simpa using this
  · have := saveExistingDay_state h
    simpa using this

lemma retroactiveFill_state {st st2 : State} {t p d u : ℕ} {pv : Bool} {r : RetroResp}
    (h : retroactiveFill st t p d u pv = .ok (st2, r)) :
    st2.borrowings = st.borrowings ∧ st2.nextBorrowingId = st.nextBorrowingId := by
  simp only [retroactiveFill] at h
  split at h
  · exact Except.noConfusion h
  split at h
  · exact Except.noConfusion h
  split at h
  · exact Except.noConfusion h
  split at h
  · have := retroNewDay_state h
    simpa using this
  · have := retroExistingDay_state h
    simpa using this

/-! ### Success characterizations of the borrowing operations -/

lemma repay_ok {st st2 : State} {t p bid : ℕ} {amt : ℚ} {r : RepayResp}
    (h : repay st t p bid amt = .ok (st2, r)) :
    ∃ b, st.borrowings.find? (fun x => x.id == bid) = some b ∧
      b.status = .OPEN ∧ b.personId = p ∧ amt ≤ b.outstandingAmount ∧ 0 < amt ∧
      st2 = (((st.updateBorrowing bid fun x =>
          { x with outstandingAmount := round2 (b.outstandingAmount - amt),
                   status := if round2 (b.outstandingAmount - amt) = 0 then .PAID else .OPEN,
                   lastPaymentAt := some t }).addPool b.poolType amt).addPayment
            ⟨p, .DEBT_PAYMENT, amt, none, some bid⟩).addLog ⟨some p, .REPAYMENT, amt⟩ ∧
      r = ⟨round2 (b.outstandingAmount - amt),
           if round2 (b.outstandingAmount - amt) = 0 then .PAID else .OPEN⟩ := by
  simp only [repay] at h
  split at h
  · exact Except.noConfusion h
  next hamt =>
  split at h
  · exact Except.noConfusion h
  next b hfind =>
  split at h
  · exact Except.noConfusion h
  next howner =>
  split at h
  · exact Except.noConfusion h
  next hstatus =>
  split at h
  · exact Except.noConfusion h
  next hover =>
  injection h with hh
  injection hh with h1 h2
  exact ⟨b, hfind, not_not.mp hstatus, not_not.mp howner, le_of_not_lt hover,
    lt_of_not_le hamt, h1.symm, h2.symm⟩

lemma payFull_ok {st st2 : State} {t p : ℕ} {pt : PoolType} {r : PayFullResp}
    (h : payFull st t p pt = .ok (st2, r)) :
    ∃ b, st.borrowings.find? (fun x =>
        decide (x.personId = p ∧ x.poolType = pt ∧ x.status = .OPEN)) = some b ∧
      st2 = (((st.updateBorrowing b.id fun x =>
          { x with outstandingAmount := 0, status := .PAID, lastPaymentAt := some t }).addPool
            pt b.outstandingAmount).addPayment
            ⟨p, .DEBT_PAYMENT, b.outstandingAmount, none, some b.id⟩).addLog
            ⟨some p, .REPAYMENT, b.outstandingAmount⟩ ∧
      r = ⟨b.id, b.outstandingAmount⟩ := by
  simp only [payFull] at h
  split at h
  · exact Except.noConfusion h
  next b hfind =>
  injection h with hh
  injection hh with h1 h2
  exact ⟨b, hfind, h1.symm, h2.symm⟩

lemma borrow_ok {st st2 : State} {t p : ℕ} {pt : PoolType} {amt : ℚ}
    {ov cv : Bool} {r : BorrowResp} (h : borrow st t p pt amt ov cv = .ok (st2, r)) :
    ∃ personal, st.findBalance p = some personal ∧ 0 < amt ∧ amt ≤ st.pools.get pt ∧
      (ov = true → cv = true) ∧
      (ov = false →
        3 ≤ (st.payments.filter fun q => decide (q.personId = p ∧ q.type = .UNIT)).length ∧
        (st.borrowings.filter fun b =>
          decide (b.personId = p ∧ b.status = .OPEN ∧ b.poolType = pt)).length = 0 ∧
        amt ≤ round2 (personal.poolBalance pt * (13/10))) ∧
      st2 = ({ st with
          borrowings := st.borrowings ++
            [⟨st.nextBorrowingId, p, pt, amt, round2 (amt * BORROW_INTEREST_PCT),
              round2 (amt + round2 (amt * BORROW_INTEREST_PCT)), .OPEN, t + periodDays pt,
              none, none⟩],
          nextBorrowingId := st.nextBorrowingId + 1 : State }.addPool pt (-amt)).addLog
          ⟨some p, .BORROW, amt⟩ ∧
      r = ⟨st.nextBorrowingId, round2 (amt + round2 (amt * BORROW_INTEREST_PCT)),
           t + periodDays pt, ov⟩ := by
  simp only [borrow] at h
  split at h
  · exact Except.noConfusion h
  next hamt =>
  split at h
  · exact Except.noConfusion h
  next personal hbal =>
  split at h
  · exact Except.noConfusion h
  next hcred =>
  split at h
  · exact Except.noConfusion h
  next hsaved =>
  split at h
  · exact Except.noConfusion h
  next hopen =>
  split at h
  · exact Except.noConfusion h
  next hlimit =>
  split at h
  · exact Except.noConfusion h
  next hgroup =>
  injection h with hh
  injection hh with h1 h2
  refine ⟨personal, hbal, lt_of_not_le hamt, le_of_not_lt hgroup, ?_, ?_, h1.symm, h2.symm⟩
  · intro hov
    by_contra hcv
    exact hcred ⟨hov, by simpa using hcv⟩
  · intro hov
    subst hov
    refine ⟨?_, ?_, ?_⟩
    · have hs : ¬(st.payments.filter fun q =>
          decide (q.personId = p ∧ q.type = .UNIT)).length < 3 :=
        fun hc => hsaved ⟨by simp, hc⟩
      omega
    · have ho : ¬0 < (st.borrowings.filter fun b =>
          decide (b.personId = p ∧ b.status = .OPEN ∧ b.poolType = pt)).length :=
        fun hc => hopen ⟨by simp, hc⟩
      omega
    · exact le_of_not_lt fun hc => hlimit ⟨by simp, hc⟩


/-! ### The one-open-borrowing-per-pool invariant -/

/-- Two borrowing rows that would together violate the "exactly one OPEN
Borrowing per (personId, poolType)" rule. -/
def openClash (a b : Borrowing) : Prop :=
  a.status = .OPEN ∧ b.status = .OPEN ∧ a.personId = b.personId ∧ a.poolType = b.poolType

instance : DecidableRel openClash := fun a b => by
  unfold openClash
  infer_instance

/-- At most one OPEN borrowing per (personId, poolType): no two distinct
rows of the borrowing table clash. -/
def OpenUnique (st : State) : Prop :=
  st.borrowings.Pairwise fun a b => ¬ openClash a b

instance (st : State) : Decidable (OpenUnique st) := by
  unfold OpenUnique
  infer_instance

/-- The borrowing table's primary-key discipline: ids are distinct and
below the AUTO_INCREMENT counter. -/
def IdsOk (st : State) : Prop :=
  (st.borrowings.map (fun b => b.id)).Nodup ∧ ∀ b ∈ st.borrowings, b.id < st.nextBorrowingId

instance (st : State) : Decidable (IdsOk st) := by
  unfold IdsOk
  exact instDecidableAnd

lemma openUnique_map {l : List Borrowing} {f : Borrowing → Borrowing}
    (hf : ∀ x ∈ l, (f x).personId = x.personId ∧ (f x).poolType = x.poolType ∧
      ((f x).status = .OPEN → x.status = .OPEN))
    (h : l.Pairwise fun a b => ¬ openClash a b) :
    (l.map f).Pairwise fun a b => ¬ openClash a b := by
  rw [List.pairwise_map]
  refine List.Pairwise.imp_of_mem ?_ h
  intro a b ha hb hab hcl
  obtain ⟨h1, h2, h3, h4⟩ := hcl
  obtain ⟨fa1, fa2, fa3⟩ := hf a ha
  obtain ⟨fb1, fb2, fb3⟩ := hf b hb
  refine hab ⟨fa3 h1, fb3 h2, ?_, ?_⟩
  · rw [← fa1, ← fb1]
    exact h3
  · rw [← fa2, ← fb2]
    exact h4

lemma ids_map {l : List Borrowing} {f : Borrowing → Borrowing}
    (hf : ∀ x, (f x).id = x.id) :
    (l.map f).map (fun b => b.id) = l.map (fun b => b.id) := by
  rw [List.map_map]
  exact List.map_congr_left fun x _ => hf x

/-- Rows touched by an UPDATE keep their primary key. -/
lemma updateBorrowing_id (g : Borrowing → Borrowing) (hg : ∀ x, (g x).id = x.id)
    (i : ℕ) (x : Borrowing) : ((fun b => if b.id = i then g b else b) x).id = x.id := by
  dsimp only
  split
  · exact hg x
  · rfl

lemma idsOk_of_map {st st2 : State} {f : Borrowing → Borrowing}
    (hb : st2.borrowings = st.borrowings.map f) (hn : st2.nextBorrowingId = st.nextBorrowingId)
    (hf : ∀ x, (f x).id = x.id) (h : IdsOk st) : IdsOk st2 := by
  obtain ⟨h1, h2⟩ := h
  constructor
  · rw [hb, ids_map hf]
    exact h1
  · intro b hbmem
    rw [hb] at hbmem
    obtain ⟨x, hx, hfx⟩ := List.mem_map.mp hbmem
    rw [hn, ← hfx, hf x]
    exact h2 x hx

lemma deleteMember_ok {st st2 : State} {p : ℕ} {cv : Bool} {u : Unit}
    (h : deleteMember st p cv = .ok (st2, u)) :
    st2.borrowings = st.borrowings.filter (fun b => decide (b.personId ≠ p)) ∧
    st2.nextBorrowingId = st.nextBorrowingId := by
  simp only [deleteMember] at h
  split at h
  · exact Except.noConfusion h
  split at h
  · exact Except.noConfusion h
  split at h
  · exact Except.noConfusion h
  injection h with hh
  injection hh with h1 h2
  rw [← h1]
  exact ⟨rfl, rfl⟩

lemma resetAll_ok {st st2 : State} {cv : Bool} {u : Unit}
    (h : resetAll st cv = .ok (st2, u)) :
    st2.borrowings = [] ∧ st2.nextBorrowingId = st.nextBorrowingId := by
  simp only [resetAll] at h
  split at h
  · exact Except.noConfusion h
  injection h with hh
  injection hh with h1 h2
  rw [← h1]
  exact ⟨rfl, rfl⟩

lemma sweepStep_inv {rn : Borrowing → Option Borrowing} {st : State} {b : Borrowing}
    (h : IdsOk st ∧ OpenUnique st) :
    IdsOk (sweepStep rn st b) ∧ OpenUnique (sweepStep rn st b) := by
  obtain ⟨hIds, hOU⟩ := h
  unfold sweepStep
  cases rn b with
  | none => exact ⟨hIds, hOU⟩
  | some b2 =>
    constructor
    · refine idsOk_of_map (f := fun x => if x.id = b.id then
        { x with outstandingAmount := b2.outstandingAmount,
                 lastPenaltyAppliedAt := b2.lastPenaltyAppliedAt } else x) (by simp) (by simp) ?_ hIds
      intro x
      dsimp only
      split <;> rfl
    · unfold OpenUnique
      simp only [State.addLog_borrowings, State.updateBorrowing_borrowings]
      refine openUnique_map ?_ hOU
      intro x _
      dsimp only
      split <;> exact ⟨rfl, rfl, fun hs => hs⟩

lemma sweepFold_inv {rn : Borrowing → Option Borrowing} (l : List Borrowing) (st : State)
    (h : IdsOk st ∧ OpenUnique st) :
    IdsOk (l.foldl (sweepStep rn) st) ∧ OpenUnique (l.foldl (sweepStep rn) st) := by
  induction l generalizing st with
  | nil => exact h
  | cons b l ih =>
    rw [List.foldl_cons]
    exact ih _ (sweepStep_inv h)

lemma sweepRun_inv {rn : Borrowing → Option Borrowing} {st : State}
    (h : IdsOk st ∧ OpenUnique st) :
    IdsOk (sweepRun rn st) ∧ OpenUnique (sweepRun rn st) :=
  sweepFold_inv _ _ h

/-- Identifies the one operation the invariant claim must except: a borrow
request carrying `adminOverride` with a valid credential. -/
def isValidOverrideBorrow : Op → Bool
  | .borrowOp _ _ _ _ ov cv => ov && cv
  | _ => false

lemma inv_congr {st st2 : State} (hb : st2.borrowings = st.borrowings)
    (hn : st2.nextBorrowingId = st.nextBorrowingId) (h : IdsOk st ∧ OpenUnique st) :
    IdsOk st2 ∧ OpenUnique st2 := by
  unfold IdsOk OpenUnique at *
  rw [hb, hn]
  exact h

lemma run_inv (op : Op) (st : State) (hIds : IdsOk st) (hOU : OpenUnique st)
    (hop : isValidOverrideBorrow op = false) :
    IdsOk (run op st) ∧ OpenUnique (run op st) := by
  cases op with
  | saveOp t p u pv d =>
    simp only [run]
    cases hs : save st t p u pv d with
    | error e => exact ⟨hIds, hOU⟩
    | ok x =>
      obtain ⟨st2, r⟩ := x
      obtain ⟨hb, hn⟩ := save_state hs
      exact inv_congr hb hn ⟨hIds, hOU⟩
  | retroOp t p d u pv =>
    simp only [run]
    cases hs : retroactiveFill st t p d u pv with
    | error e => exact ⟨hIds, hOU⟩
    | ok x =>
      obtain ⟨st2, r⟩ := x
      obtain ⟨hb, hn⟩ := retroactiveFill_state hs
      exact inv_congr hb hn ⟨hIds, hOU⟩
  | borrowOp t p pt a ov cv =>
    simp only [run]
    cases hs : borrow st t p pt a ov cv with
    | error e => exact ⟨hIds, hOU⟩
    | ok x =>
      obtain ⟨st2, r⟩ := x
      obtain ⟨personal, hbal, hpos, hgrp, hovcv, helig, hst2, hr⟩ := borrow_ok hs
      have hov : ov = false := by
        cases hovq : ov with
        | false => rfl
        | true =>
          have := hovcv hovq
          simp [isValidOverrideBorrow, hovq, this] at hop
      obtain ⟨hsav, hopen, hlim⟩ := helig hov
      subst hst2
      have hbeq : (({ st with
          borrowings := st.borrowings ++
            [⟨st.nextBorrowingId, p, pt, a, round2 (a * BORROW_INTEREST_PCT),
              round2 (a + round2 (a * BORROW_INTEREST_PCT)), .OPEN, t + periodDays pt,
              none, none⟩],
          nextBorrowingId := st.nextBorrowingId + 1 : State }.addPool pt (-a)).addLog
          ⟨some p, .BORROW, a⟩).borrowings = st.borrowings ++
            [⟨st.nextBorrowingId, p, pt, a, round2 (a * BORROW_INTEREST_PCT),
              round2 (a + round2 (a * BORROW_INTEREST_PCT)), .OPEN, t + periodDays pt,
              none, none⟩] := by simp
      have hfil : ∀ x ∈ st.borrowings,
          ¬(x.personId = p ∧ x.status = .OPEN ∧ x.poolType = pt) := by
        have h0 : (st.borrowings.filter fun b =>
            decide (b.personId = p ∧ b.status = .OPEN ∧ b.poolType = pt)) = [] :=
          List.length_eq_zero.mp hopen
        intro x hx hcl
        have := List.filter_eq_nil_iff.mp h0 x hx
        simp only [decide_eq_true_eq] at this
        exact this hcl
      constructor
      · constructor
        · rw [hbeq, List.map_append, List.nodup_append]
          refine ⟨hIds.1, List.nodup_singleton _, ?_⟩
          intro i hi hi2
          simp only [List.map_cons, List.map_nil, List.mem_singleton] at hi2
          have hi3 : i = st.nextBorrowingId := hi2
          obtain ⟨x, hx, hxi⟩ := List.mem_map.mp hi
          have := hIds.2 x hx
          omega
        · intro b hbm
          rw [hbeq] at hbm
          simp only [State.addLog_nextBorrowingId, State.addPool_nextBorrowingId]
          rcases List.mem_append.mp hbm with hmem | hmem
          · have := hIds.2 b hmem
            omega
          · simp only [List.mem_singleton] at hmem
            subst hmem
            exact Nat.lt_succ_self _
      · unfold OpenUnique
        rw [hbeq, List.pairwise_append]
        refine ⟨hOU, List.pairwise_singleton _ _, ?_⟩
        intro x hx nb hnb hcl
        simp only [List.mem_singleton] at hnb
        subst hnb
        obtain ⟨c1, c2, c3, c4⟩ := hcl
        exact hfil x hx ⟨c3, c1, c4⟩
  | repayOp t p bid a =>
    simp only [run]
    cases hs : repay st t p bid a with
    | error e => exact ⟨hIds, hOU⟩
    | ok x =>
      obtain ⟨st2, r⟩ := x
      obtain ⟨b, hfind, hbst, hbper, hle, hpos, hst2, hrr⟩ := repay_ok hs
      subst hst2
      have hbid : b.id = bid := by
        have := List.find?_some hfind
        simpa using this
      have hbmem : b ∈ st.borrowings := List.mem_of_find?_eq_some hfind
      constructor
      · refine idsOk_of_map (f := fun x => if x.id = bid then
          { x with outstandingAmount := round2 (b.outstandingAmount - a),
                   status := if round2 (b.outstandingAmount - a) = 0 then .PAID else .OPEN,
                   lastPaymentAt := some t } else x) (by simp) (by simp) ?_ hIds
        intro x
        dsimp only
        split <;> rfl
      · unfold OpenUnique
        simp only [State.addLog_borrowings, State.addPayment_borrowings,
          State.addPool_borrowings, State.updateBorrowing_borrowings]
        refine openUnique_map (f := fun x => if x.id = bid then
          { x with outstandingAmount := round2 (b.outstandingAmount - a),
                   status := if round2 (b.outstandingAmount - a) = 0 then .PAID else .OPEN,
                   lastPaymentAt := some t } else x) ?_ hOU
        intro x hx
        dsimp only
        split
        · next hxid =>
          have hxb : x = b := List.inj_on_of_nodup_map hIds.1 hx hbmem (by rw [hxid, hbid])
          subst hxb
          exact ⟨rfl, rfl, fun _ => hbst⟩
        · exact ⟨rfl, rfl, fun hs2 => hs2⟩
  | payFullOp t p pt =>
    simp only [run]
    cases hs : payFull st t p pt with
    | error e => exact ⟨hIds, hOU⟩
    | ok x =>
      obtain ⟨st2, r⟩ := x
      obtain ⟨b, hfind, hst2, hrr⟩ := payFull_ok hs
      subst hst2
      constructor
      · refine idsOk_of_map (f := fun x => if x.id = b.id then
          { x with outstandingAmount := 0, status := .PAID,
                   lastPaymentAt := some t } else x) (by simp) (by simp) ?_ hIds
        intro x
        dsimp only
        split <;> rfl
      · unfold OpenUnique
        simp only [State.addLog_borrowings, State.addPayment_borrowings,
          State.addPool_borrowings, State.updateBorrowing_borrowings]
        refine openUnique_map (f := fun x => if x.id = b.id then
          { x with outstandingAmount := 0, status := .PAID,
                   lastPaymentAt := some t } else x) ?_ hOU
        intro x hx
        dsimp only
        split
        · exact ⟨rfl, rfl, fun hs2 => BorrowStatus.noConfusion hs2⟩
        · exact ⟨rfl, rfl, fun hs2 => hs2⟩
  | penaltiesStandaloneOp n =>
    exact sweepRun_inv ⟨hIds, hOU⟩
  | penaltiesAdminOp n =>
    exact sweepRun_inv ⟨hIds, hOU⟩
  | deleteMemberOp p cv =>
    simp only [run]
    cases hs : deleteMember st p cv with
    | error e => exact ⟨hIds, hOU⟩
    | ok x =>
      obtain ⟨st2, r⟩ := x
      obtain ⟨hb, hn⟩ := deleteMember_ok hs
      constructor
      · constructor
        · rw [hb]
          exact (hIds.1).sublist ((List.filter_sublist _).map _)
        · intro b hbm
          rw [hn]
          rw [hb] at hbm
          exact hIds.2 b (List.mem_of_mem_filter hbm)
      · unfold OpenUnique
        rw [hb]
        exact hOU.sublist (List.filter_sublist _)
  | resetAllOp cv =>
    simp only [run]
    cases hs : resetAll st cv with
    | error e => exact ⟨hIds, hOU⟩
    | ok x =>
      obtain ⟨st2, r⟩ := x
      obtain ⟨hb, hn⟩ := resetAll_ok hs
      constructor
      · exact ⟨by rw [hb]; exact List.nodup_nil, fun b hbm => by rw [hb] at hbm; cases hbm⟩
      · unfold OpenUnique
        rw [hb]
        exact List.Pairwise.nil

/-- Replays a sequence of operations against the store: the reachable
states are exactly the results of `runAll` from a seeded initial state. -/
def runAll (ops : List Op) (st : State) : State :=
  ops.foldl (fun s2 op => run op s2) st

/-- A seeded store with one OPEN MAIN borrowing for person 1, satisfying
the one-open-debt invariant and primary-key discipline. -/
def c2State : State :=
  { people := [1],
    balances := [⟨1, 1000, 0⟩],
    pools := ⟨5000, 0⟩,
    borrowings := [⟨0, 1, .MAIN, 100, 10, 110, .OPEN, 35, none, none⟩],
    payments := [],
    summaries := [],
    txLog := [],
    nextBorrowingId := 1 }

/-- C2 counterexample: from a state satisfying the invariant, a borrow
with adminOverride and a valid credential in the same pool succeeds and
creates a second OPEN (personId, poolType) borrowing — the claim is false
for the override case, which skips the open-debt check. -/
theorem c2_counterexample :
    OpenUnique c2State ∧ IdsOk c2State ∧
    ¬ OpenUnique (run (Op.borrowOp 5 1 .MAIN 100 true true) c2State) := by
  decide

/-- C2 (amended): in every state reachable by save, retroactiveFill,
borrow, repay, payFull, either penalty sweep, deleteMember and resetAll
from a store satisfying the invariant and the primary-key discipline,
each (personId, poolType) pair has at most one OPEN borrowing — provided
no step is a borrow with adminOverride and a valid credential (that one
operation skips the open-debt check and can violate the invariant). -/
theorem c2_open_unique_preserved (st0 : State) (ops : List Op)
    (hIds : IdsOk st0) (hOU : OpenUnique st0)
    (hops : ∀ op ∈ ops, isValidOverrideBorrow op = false) :
    OpenUnique (runAll ops st0) := by
  suffices h : IdsOk (runAll ops st0) ∧ OpenUnique (runAll ops st0) from h.2
  induction ops generalizing st0 with
  | nil => exact ⟨hIds, hOU⟩
  | cons op ops ih =>
    rw [runAll, List.foldl_cons]
    exact ih (run op st0)
      (run_inv op st0 hIds hOU (hops op (List.mem_cons_self _ _))).1
      (run_inv op st0 hIds hOU (hops op (List.mem_cons_self _ _))).2
      (fun op2 hop2 => hops op2 (List.mem_cons_of_mem _ hop2))

/-- Witness for the amended C2 at a concrete store and a concrete
borrow / repay / penalty sequence. -/
theorem c2_witness :
    OpenUnique (runAll [Op.borrowOp 0 1 .MAIN 100 false false,
      Op.repayOp 1 1 1 50, Op.penaltiesAdminOp 40] c2State) :=
  c2_open_unique_preserved c2State _ (by decide) (by decide) (by decide)

/-! ### Arithmetic and search helper lemmas -/

@[simp] lemma round2_zero : round2 0 = 0 := by
  norm_num [round2]

lemma find?_eq_head_filter {α : Type} (q : α → Bool) (l : List α) :
    l.find? q = (l.filter q).head? := by
  induction l with
  | nil => rfl
  | cons a l ih =>
    by_cases h : q a
    · rw [List.find?_cons_of_pos _ h, List.filter_cons_of_pos h]
      rfl
    · rw [List.find?_cons_of_neg _ (by simpa using h),
        List.filter_cons_of_neg (by simpa using h)]
      exact ih

/-- A find-by-id query commutes with an UPDATE-by-id over the table,
because the update keeps every row's primary key. -/
lemma find_id_map_update (l : List Borrowing) (i : ℕ) (g : Borrowing → Borrowing)
    (hg : ∀ x, (g x).id = x.id) (j : ℕ) :
    (l.map fun x => if x.id = j then g x else x).find? (fun x => x.id == i) =
      (l.find? (fun x => x.id == i)).map (fun x => if x.id = j then g x else x) := by
  induction l with
  | nil => rfl
  | cons a l ih =>
    have hid : (if a.id = j then g a else a).id = a.id := by
      split
      · exact hg a
      · rfl
    by_cases hai : a.id = i
    · rw [List.map_cons, List.find?_cons_of_pos _ (by simp only [hid]; simp [hai]),
        List.find?_cons_of_pos _ (by simp [hai])]
      rfl
    · rw [List.map_cons, List.find?_cons_of_neg _ (by simp only [hid]; simp [hai]),
        List.find?_cons_of_neg _ (by simp [hai])]
      exact ih

/-- In a table with distinct primary keys, looking a row's own id up
returns that row. -/
lemma find_id_self {l : List Borrowing} (hn : (l.map fun x => x.id).Nodup) {b : Borrowing}
    (hb : b ∈ l) : l.find? (fun x => x.id == b.id) = some b := by
  induction l with
  | nil => cases hb
  | cons a l ih =>
    rcases List.mem_cons.mp hb with rfl | hb2
    · exact List.find?_cons_of_pos _ (by simp)
    · have ha : a.id ≠ b.id := by
        intro he
        have h1 : a.id ∉ l.map fun x => x.id := (List.nodup_cons.mp (by simpa using hn)).1
        exact h1 (he ▸ List.mem_map_of_mem _ hb2)
      rw [List.find?_cons_of_neg _ (by simp [ha])]
      exact ih (List.nodup_cons.mp (by simpa using hn)).2 hb2

/-! ### What a penalty sweep does to each row -/

lemma sweepStep_find_ne {rn : Borrowing → Option Borrowing} {st : State} {b : Borrowing}
    {i : ℕ} (hne : b.id ≠ i) :
    ((sweepStep rn st b).borrowings.find? fun x => x.id == i) =
      st.borrowings.find? fun x => x.id == i := by
  unfold sweepStep
  cases rn b with
  | none => rfl
  | some b2 =>
    simp only [State.addLog_borrowings, State.updateBorrowing_borrowings]
    rw [find_id_map_update _ i (fun x =>
      { x with outstandingAmount := b2.outstandingAmount,
               lastPenaltyAppliedAt := b2.lastPenaltyAppliedAt }) (fun x => rfl) b.id]
    cases hf : st.borrowings.find? (fun x => x.id == i) with
    | none => rfl
    | some x =>
      have hxi : x.id = i := by simpa using List.find?_some hf
      simp only [Option.map_some']
      rw [if_neg (by rw [hxi]; exact fun hh => hne hh.symm)]

lemma sweepFold_find_ne {rn : Borrowing → Option Borrowing} {i : ℕ} :
    ∀ (l : List Borrowing) (st : State), (∀ b ∈ l, b.id ≠ i) →
    ((l.foldl (sweepStep rn) st).borrowings.find? fun x => x.id == i) =
      st.borrowings.find? fun x => x.id == i := by
  intro l
  induction l with
  | nil => intro st _; rfl
  | cons b l ih =>
    intro st hl
    rw [List.foldl_cons, ih _ (fun x hx => hl x (List.mem_cons_of_mem _ hx)),
      sweepStep_find_ne (hl b (List.mem_cons_self _ _))]

lemma sweepStep_find_eq {rn : Borrowing → Option Borrowing} {st : State} {b x0 : Borrowing}
    (hf : st.borrowings.find? (fun x => x.id == b.id) = some x0) :
    ((sweepStep rn st b).borrowings.find? fun x => x.id == b.id) =
      some (match rn b with
        | none => x0
        | some b2 => { x0 with outstandingAmount := b2.outstandingAmount,
                               lastPenaltyAppliedAt := b2.lastPenaltyAppliedAt }) := by
  unfold sweepStep
  cases rn b with
  | none => exact hf
  | some b2 =>
    simp only [State.addLog_borrowings, State.updateBorrowing_borrowings]
    rw [find_id_map_update _ b.id (fun x =>
      { x with outstandingAmount := b2.outstandingAmount,
               lastPenaltyAppliedAt := b2.lastPenaltyAppliedAt }) (fun x => rfl) b.id, hf]
    have hx0 : x0.id = b.id := by simpa using List.find?_some hf
    simp only [Option.map_some']
    rw [if_pos hx0]

/-- Effect of a sweep on a single OPEN row of a table with distinct
primary keys: the row becomes exactly what the sweep's per-row
computation says, independent of the other rows. -/
lemma sweepRun_find {rn : Borrowing → Option Borrowing} {st : State}
    (hnodup : (st.borrowings.map fun x => x.id).Nodup) {b : Borrowing}
    (hb : b ∈ st.borrowings) (hopen : b.status = .OPEN) :
    ((sweepRun rn st).borrowings.find? fun x => x.id == b.id) =
      some (match rn b with
        | none => b
        | some b2 => { b with outstandingAmount := b2.outstandingAmount,
                              lastPenaltyAppliedAt := b2.lastPenaltyAppliedAt }) := by
  have hw : b ∈ st.borrowings.filter fun x => decide (x.status = .OPEN) :=
    List.mem_filter.mpr ⟨hb, by simp [hopen]⟩
  obtain ⟨l1, l2, hsplit⟩ := List.append_of_mem hw
  have hwn : ((st.borrowings.filter fun x => decide (x.status = .OPEN)).map
      fun x => x.id).Nodup :=
    hnodup.sublist ((List.filter_sublist _).map _)
  rw [hsplit, List.map_append, List.map_cons, List.nodup_append] at hwn
  obtain ⟨hn1, hn2, hdisj⟩ := hwn
  have hl1 : ∀ x ∈ l1, x.id ≠ b.id := by
    intro x hx he
    exact hdisj (List.mem_map_of_mem _ hx) (by simp [he])
  have hl2 : ∀ x ∈ l2, x.id ≠ b.id := by
    intro x hx he
    have := (List.nodup_cons.mp hn2).1
    exact this (he ▸ List.mem_map_of_mem _ hx)
  unfold sweepRun
  rw [hsplit, List.foldl_append, List.foldl_cons]
  rw [sweepFold_find_ne l2 _ hl2]
  exact sweepStep_find_eq (by rw [sweepFold_find_ne l1 st hl1]; exact find_id_self hnodup hb)

/-! ### Claim C1: the routed penalty sweep -/

/-- The new outstanding amount claim C1 ascribes to the routed sweep:
elapsed days divided by the pool's own period (30 MAIN / 7 VALIDITY) with
floor division, then `outstanding × 1.1 ^ fullPeriods` rounded to two
decimals once at the end.  Stated from the spec text, for comparison with
the code's `adminRowNew`. -/
def c1ClaimedNewOutstanding (pt : PoolType) (outstanding : ℚ) (daysSince : ℕ) : ℚ :=
  round2 (outstanding * (11/10) ^ (daysSince / periodDays pt))

/-- A VALIDITY borrowing of outstanding 1000.00 due at day 0, swept at day 7. -/
def c1State : State :=
  { people := [1],
    balances := [⟨1, 0, 1000⟩],
    pools := ⟨0, 5000⟩,
    borrowings := [⟨0, 1, .VALIDITY, 1000, 100, 1000, .OPEN, 0, none, none⟩],
    payments := [],
    summaries := [],
    txLog := [],
    nextBorrowingId := 1 }

/-- C1 counterexample: the routed sweep (adminController.runPenalties) at
day 7 leaves the overdue VALIDITY borrowing at 1000.00 (it divides the 7
elapsed days by 30, getting 0 full periods), while the claim's formula —
7-day periods for VALIDITY, one period elapsed — demands 1100.00. -/
theorem c1_counterexample :
    ((runPenaltiesAdmin 7 c1State).borrowings.find? fun x => x.id == 0) =
      some ⟨0, 1, .VALIDITY, 1000, 100, 1000, .OPEN, 0, none, none⟩ ∧
    c1ClaimedNewOutstanding .VALIDITY 1000 7 = 1100 ∧
    (1000 : ℚ) ≠ 1100 := by
  refine ⟨by decide, ?_, by norm_num⟩
  norm_num [c1ClaimedNewOutstanding, round2, periodDays]

/-- C1 (amended): for every OPEN borrowing past its due date, the routed
penalty sweep (adminController.runPenalties) computes fullPeriods as the
whole elapsed days since the later of dueDate / lastPenaltyAppliedAt
divided by 30 — for BOTH pool types, not 7 for VALIDITY — skips the
borrowing when fullPeriods is 0, and otherwise compounds the outstanding
at 10% per period rounding to 2 decimals after every period (not once at
the end), finally setting lastPenaltyAppliedAt to the sweep time. -/
theorem c1_admin_sweep_per_borrowing {st : State} {nowDay : ℕ} {b : Borrowing}
    (hnodup : (st.borrowings.map fun x => x.id).Nodup)
    (hb : b ∈ st.borrowings) (hopen : b.status = .OPEN) (hdue : b.dueDate < nowDay) :
    ((runPenaltiesAdmin nowDay st).borrowings.find? fun x => x.id == b.id) =
      some (if (nowDay - b.lastPenaltyAppliedAt.getD b.dueDate) / 30 = 0 then b
        else { b with
          outstandingAmount := compoundPerPeriod
            ((nowDay - b.lastPenaltyAppliedAt.getD b.dueDate) / 30) b.outstandingAmount,
          lastPenaltyAppliedAt := some nowDay }) := by
  rw [runPenaltiesAdmin, sweepRun_find hnodup hb hopen]
  have hrow : adminRowNew nowDay b =
      if (nowDay - b.lastPenaltyAppliedAt.getD b.dueDate) / 30 = 0 then none
      else some { b with
        outstandingAmount := compoundPerPeriod
          ((nowDay - b.lastPenaltyAppliedAt.getD b.dueDate) / 30) b.outstandingAmount,
        lastPenaltyAppliedAt := some nowDay } := by
    unfold adminRowNew
    rw [if_neg (not_le.mpr hdue)]
  by_cases h : (nowDay - b.lastPenaltyAppliedAt.getD b.dueDate) / 30 = 0
  · rw [hrow, if_pos h, if_pos h]
  · rw [hrow, if_neg h, if_neg h]

/-- A MAIN borrowing of outstanding 1000.00 due at day 0. -/
def c1WitnessState : State :=
  { people := [1],
    balances := [⟨1, 1000, 0⟩],
    pools := ⟨5000, 0⟩,
    borrowings := [⟨0, 1, .MAIN, 1000, 100, 1000, .OPEN, 0, none, none⟩],
    payments := [],
    summaries := [],
    txLog := [],
    nextBorrowingId := 1 }

/-- Witness for the amended C1: a MAIN borrowing of outstanding 1000.00
due at day 0 swept at day 65 — two full 30-day periods — lands at
`compoundPerPeriod 2 1000 = 1210.00`. -/
theorem c1_witness :
    ((runPenaltiesAdmin 65 c1WitnessState).borrowings.find? fun x => x.id == 0) =
      some ⟨0, 1, .MAIN, 1000, 100, 1210, .OPEN, 0, none, some 65⟩ := by
  have h := @c1_admin_sweep_per_borrowing c1WitnessState 65
    ⟨0, 1, .MAIN, 1000, 100, 1000, .OPEN, 0, none, none⟩
    (by decide) (by decide) (by decide) (by decide)
  rw [h]
  norm_num [compoundPerPeriod, round2]

/-! ### Claim C3: the two sweep implementations -/

/-- An overdue VALIDITY borrowing on which the two sweeps disagree. -/
def c3Borrowing : Borrowing := ⟨0, 1, .VALIDITY, 1000, 100, 1000, .OPEN, 0, none, none⟩

/-- C3 counterexample: at 7 elapsed days, the standalone sweep applies a
7-day VALIDITY period and compounds 1000.00 to 1100.00, while the
adminController sweep divides by 30 and leaves it at 1000.00 — the two
implementations do not compute the same new outstanding. -/
theorem c3_counterexample :
    ((standaloneRowNew 7 c3Borrowing).getD c3Borrowing).outstandingAmount = 1100 ∧
    ((adminRowNew 7 c3Borrowing).getD c3Borrowing).outstandingAmount = 1000 ∧
    (1100 : ℚ) ≠ 1000 := by
  refine ⟨?_, ?_, by norm_num⟩
  · norm_num [standaloneRowNew, c3Borrowing, periodDays, round2]
  · norm_num [adminRowNew, c3Borrowing]

/-- C3 (amended): the two sweeps agree only on the fragment where their
parameters coincide — MAIN-pool borrowings with at most one full 30-day
period elapsed (one per-period rounding step equals one final rounding).
For VALIDITY borrowings the adminController sweep uses a 30-day period
instead of 7, and for two or more periods it rounds after every period
instead of once at the end, so the results differ in general. -/
theorem c3_sweeps_agree_main_one_period {b : Borrowing} {nowDay : ℕ}
    (hMain : b.poolType = .MAIN)
    (hper : (nowDay - b.lastPenaltyAppliedAt.getD b.dueDate) / 30 ≤ 1) :
    standaloneRowNew nowDay b = adminRowNew nowDay b := by
  simp only [standaloneRowNew, adminRowNew, hMain, periodDays]
  by_cases hd : nowDay ≤ b.dueDate
  · rw [if_pos hd, if_pos hd]
  · rw [if_neg hd, if_neg hd]
    rcases Nat.le_one_iff_eq_zero_or_eq_one.mp hper with h0 | h1
    · rw [if_pos h0, if_pos h0]
    · rw [if_neg (by omega), if_neg (by omega), h1]
      simp [compoundPerPeriod, pow_one]

/-- A MAIN borrowing 35 days past due: both sweeps compound once to 1100.00. -/
def c3WitnessBorrowing : Borrowing := ⟨0, 1, .MAIN, 1000, 100, 1000, .OPEN, 0, none, none⟩

/-- Witness for the amended C3 at one full MAIN period. -/
theorem c3_witness :
    standaloneRowNew 35 c3WitnessBorrowing = adminRowNew 35 c3WitnessBorrowing ∧
    adminRowNew 35 c3WitnessBorrowing =
      some { c3WitnessBorrowing with
               outstandingAmount := 1100, lastPenaltyAppliedAt := some 35 } := by
  refine ⟨c3_sweeps_agree_main_one_period (by decide) (by decide), ?_⟩
  norm_num [adminRowNew, c3WitnessBorrowing, compoundPerPeriod, round2]

/-! ### Claim C4: successful borrow -/

/-- C4: every successful borrow of amount A from pool P computes interest
round2(A × 0.10), creates an OPEN borrowing with outstanding
round2(A + interest) and dueDate today + 30 (MAIN) / + 7 (VALIDITY) days,
and debits GroupPool[P] by exactly the principal A, leaving the other
pool untouched. -/
theorem c4_borrow_success {st st2 : State} {t p : ℕ} {pt : PoolType} {amt : ℚ}
    {ov cv : Bool} {r : BorrowResp}
    (h : borrow st t p pt amt ov cv = .ok (st2, r)) :
    r.outstanding = round2 (amt + round2 (amt * BORROW_INTEREST_PCT)) ∧
    r.dueDate = t + periodDays pt ∧
    st2.borrowings = st.borrowings ++
      [⟨st.nextBorrowingId, p, pt, amt, round2 (amt * BORROW_INTEREST_PCT),
        round2 (amt + round2 (amt * BORROW_INTEREST_PCT)), .OPEN, t + periodDays pt,
        none, none⟩] ∧
    st2.pools.get pt = st.pools.get pt - amt ∧
    (∀ q, q ≠ pt → st2.pools.get q = st.pools.get q) := by
  obtain ⟨personal, hbal, hpos, hgrp, hocv, helig, hst2, hr⟩ := borrow_ok h
  subst hst2
  subst hr
  refine ⟨rfl, rfl, by simp, ?_, ?_⟩
  · show ((st.pools.add pt (-amt)).get pt) = st.pools.get pt - amt
    rw [GroupPools.get_add_self]
    ring
  · intro q hq
    show ((st.pools.add pt (-amt)).get q) = st.pools.get q
    exact GroupPools.get_add_other _ _ _ _ hq

/-- Person 1 with mainSavingsBalance 1000.00, three historical UNIT
payments and GroupPool[MAIN] = 5000.00. -/
def c4State : State :=
  { people := [1],
    balances := [⟨1, 1000, 0⟩],
    pools := ⟨5000, 0⟩,
    borrowings := [],
    payments := [⟨1, .UNIT, 500, some 0, none⟩, ⟨1, .UNIT, 500, some 1, none⟩,
      ⟨1, .UNIT, 500, some 2, none⟩],
    summaries := [],
    txLog := [],
    nextBorrowingId := 0 }

/-- The store after person 1 borrows 1300.00 from MAIN on day 5. -/
def c4OutState : State :=
  { people := [1],
    balances := [⟨1, 1000, 0⟩],
    pools := ⟨3700, 0⟩,
    borrowings := [⟨0, 1, .MAIN, 1300, 130, 1430, .OPEN, 35, none, none⟩],
    payments := [⟨1, .UNIT, 500, some 0, none⟩, ⟨1, .UNIT, 500, some 1, none⟩,
      ⟨1, .UNIT, 500, some 2, none⟩],
    summaries := [],
    txLog := [⟨some 1, .BORROW, 1300⟩],
    nextBorrowingId := 1 }

/-- Witness for C4, containing the claim's scenario: borrowing 1300.00
from MAIN at GroupPool[MAIN] = 5000.00 succeeds with outstanding 1430.00
and leaves GroupPool[MAIN] = 3700.00 (principal only debited). -/
theorem c4_witness :
    borrow c4State 5 1 .MAIN 1300 false false = .ok (c4OutState, ⟨0, 1430, 35, false⟩) ∧
    c4OutState.pools.get .MAIN = c4State.pools.get .MAIN - 1300 ∧
    c4OutState.pools.get .MAIN = 3700 := by
  have h : borrow c4State 5 1 .MAIN 1300 false false = .ok (c4OutState, ⟨0, 1430, 35, false⟩) := by
    simp only [borrow, c4State, c4OutState, State.findBalance, State.addPool, State.addLog,
      State.mk.injEq, GroupPools.add, GroupPools.mk.injEq, BORROW_INTEREST_PCT, periodDays,
      List.find?, List.filter]
    norm_num [round2, PersonalBalance.poolBalance, GroupPools.get]
  exact ⟨h, (c4_borrow_success h).2.2.2.1, by norm_num [c4OutState, GroupPools.get]⟩

/-! ### Claim C5: repay overpayment / exact payoff -/

/-- C5: for a repay against an OPEN borrowing owned by the caller, an
amount above the outstanding fails with OVERPAYMENT carrying the true
outstanding (and, the error rolling back, changes nothing); an amount
equal to the outstanding zeroes it and flips the status to PAID; and
every successful repay credits the full amount back into the GroupPool of
the borrowing's pool type. -/
theorem c5_repay_spec {st : State} {p bid : ℕ} (t : ℕ) (amt : ℚ) {b : Borrowing}
    (hfind : st.borrowings.find? (fun x => x.id == bid) = some b)
    (hown : b.personId = p) (hopen : b.status = .OPEN) (hpos : 0 < amt) :
    (b.outstandingAmount < amt →
      repay st t p bid amt = .error (.overpayment b.outstandingAmount) ∧
      run (Op.repayOp t p bid amt) st = st) ∧
    (amt = b.outstandingAmount →
      repay st t p bid amt = .ok
        ((((st.updateBorrowing bid fun x =>
          { x with outstandingAmount := 0, status := .PAID, lastPaymentAt := some t }).addPool
            b.poolType amt).addPayment ⟨p, .DEBT_PAYMENT, amt, none, some bid⟩).addLog
            ⟨some p, .REPAYMENT, amt⟩, ⟨0, .PAID⟩)) ∧
    (∀ st2 r, repay st t p bid amt = .ok (st2, r) →
      st2.pools.get b.poolType = st.pools.get b.poolType + amt) := by
  have key : repay st t p bid amt =
      if b.outstandingAmount < amt then .error (.overpayment b.outstandingAmount)
      else .ok ((((st.updateBorrowing bid fun x =>
          { x with outstandingAmount := round2 (b.outstandingAmount - amt),
                   status := if round2 (b.outstandingAmount - amt) = 0 then .PAID else .OPEN,
                   lastPaymentAt := some t }).addPool b.poolType amt).addPayment
            ⟨p, .DEBT_PAYMENT, amt, none, some bid⟩).addLog ⟨some p, .REPAYMENT, amt⟩,
        ⟨round2 (b.outstandingAmount - amt),
         if round2 (b.outstandingAmount - amt) = 0 then .PAID else .OPEN⟩) := by
    simp only [repay, hfind]
    rw [if_neg (not_le.mpr hpos), if_neg (fun hne => hne hown), if_neg (fun hne => hne hopen)]
  refine ⟨fun hover => ⟨by rw [key, if_pos hover], ?_⟩, fun heq => ?_, fun st2 r h2 => ?_⟩
  · simp only [run]
    rw [key, if_pos hover]
  · have h0 : round2 (b.outstandingAmount - amt) = 0 := by
      rw [heq, sub_self, round2_zero]
    rw [key, if_neg (not_lt.mpr (le_of_eq heq))]
    simp [h0]
  · obtain ⟨b2, hfind2, _, _, _, _, hst2, _⟩ := repay_ok h2
    rw [hfind] at hfind2
    have hbb := Option.some.inj hfind2
    subst hbb
    subst hst2
    simp

/-- Person 1 owes 110.00 on OPEN MAIN borrowing 0. -/
def c5State : State :=
  { people := [1],
    balances := [⟨1, 1000, 0⟩],
    pools := ⟨4900, 0⟩,
    borrowings := [⟨0, 1, .MAIN, 100, 10, 110, .OPEN, 35, none, none⟩],
    payments := [],
    summaries := [],
    txLog := [],
    nextBorrowingId := 1 }

/-- Witness for C5: repaying 111.00 on an outstanding of 110.00 fails
with OVERPAYMENT reporting 110.00; repaying exactly 110.00 zeroes the
borrowing, flips it to PAID and credits 110.00 back to GroupPool[MAIN]. -/
theorem c5_witness :
    repay c5State 6 1 0 111 = .error (.overpayment 110) ∧
    run (Op.repayOp 6 1 0 111) c5State = c5State ∧
    repay c5State 6 1 0 110 =
      .ok ((((c5State.updateBorrowing 0 fun x =>
        { x with outstandingAmount := 0, status := .PAID, lastPaymentAt := some 6 }).addPool
          .MAIN 110).addPayment ⟨1, .DEBT_PAYMENT, 110, none, some 0⟩).addLog
          ⟨some 1, .REPAYMENT, 110⟩, ⟨0, .PAID⟩) := by
  have hfind : c5State.borrowings.find? (fun x => x.id == 0) =
      some ⟨0, 1, .MAIN, 100, 10, 110, .OPEN, 35, none, none⟩ := rfl
  have h1 := c5_repay_spec 6 111 hfind rfl rfl (by norm_num)
  have h2 := c5_repay_spec 6 110 hfind rfl rfl (by norm_num)
  exact ⟨(h1.1 (by norm_num)).1, (h1.1 (by norm_num)).2, h2.2.1 (by norm_num)⟩

/-! ### Claim C6: the 130% personal borrow limit -/

/-- Person 1 with mainSavingsBalance 1000.00 but no UNIT payments. -/
def c6State : State :=
  { people := [1],
    balances := [⟨1, 1000, 0⟩],
    pools := ⟨5000, 0⟩,
    borrowings := [],
    payments := [],
    summaries := [],
    txLog := [],
    nextBorrowingId := 0 }

/-- C6 counterexample: a borrow of 2000.00 — far above the personal limit
round2(1.30 × 1000) = 1300 — by a person with fewer than 3 UNIT payments
fails with the saved-count error, not LIMIT_EXCEEDED: the saved-count
check runs first, so the claim's error code is wrong for such borrows. -/
theorem c6_counterexample :
    borrow c6State 0 1 .MAIN 2000 false false = .error .insufficientSavedCount ∧
    round2 (1000 * (13/10)) < 2000 ∧
    Err.insufficientSavedCount ≠ Err.limitExceeded := by
  refine ⟨?_, by norm_num [round2], by decide⟩
  simp only [borrow, c6State, State.findBalance, List.find?, List.filter]
  norm_num

/-- C6 (amended): for a borrow without adminOverride by a person with at
least 3 UNIT payments and no OPEN borrowing in the same pool: a request
above round2(1.30 × B) fails with LIMIT_EXCEEDED and changes no state,
and a request of exactly round2(1.30 × B) passes the personal-limit check
and succeeds whenever the group pool covers it. -/
theorem c6_borrow_limit {st : State} {p : ℕ} (t : ℕ) (amt : ℚ) (pt : PoolType)
    {personal : PersonalBalance}
    (hbal : st.findBalance p = some personal)
    (hsaved : 3 ≤ (st.payments.filter fun q => decide (q.personId = p ∧ q.type = .UNIT)).length)
    (hopen : (st.borrowings.filter fun b =>
      decide (b.personId = p ∧ b.status = .OPEN ∧ b.poolType = pt)).length = 0)
    (hpos : 0 < amt) :
    (round2 (personal.poolBalance pt * (13/10)) < amt →
      borrow st t p pt amt false false = .error .limitExceeded ∧
      run (Op.borrowOp t p pt amt false false) st = st) ∧
    (amt = round2 (personal.poolBalance pt * (13/10)) → amt ≤ st.pools.get pt →
      borrow st t p pt amt false false = .ok
        (({ st with
            borrowings := st.borrowings ++
              [⟨st.nextBorrowingId, p, pt, amt, round2 (amt * BORROW_INTEREST_PCT),
                round2 (amt + round2 (amt * BORROW_INTEREST_PCT)), .OPEN, t + periodDays pt,
                none, none⟩],
            nextBorrowingId := st.nextBorrowingId + 1 : State }.addPool pt (-amt)).addLog
            ⟨some p, .BORROW, amt⟩,
          ⟨st.nextBorrowingId, round2 (amt + round2 (amt * BORROW_INTEREST_PCT)),
           t + periodDays pt, false⟩)) := by
  have key : borrow st t p pt amt false false =
      if round2 (personal.poolBalance pt * (13/10)) < amt then .error .limitExceeded
      else if st.pools.get pt < amt then .error .insufficientGroupFunds
      else .ok
        (({ st with
            borrowings := st.borrowings ++
              [⟨st.nextBorrowingId, p, pt, amt, round2 (amt * BORROW_INTEREST_PCT),
                round2 (amt + round2 (amt * BORROW_INTEREST_PCT)), .OPEN, t + periodDays pt,
                none, none⟩],
            nextBorrowingId := st.nextBorrowingId + 1 : State }.addPool pt (-amt)).addLog
            ⟨some p, .BORROW, amt⟩,
          ⟨st.nextBorrowingId, round2 (amt + round2 (amt * BORROW_INTEREST_PCT)),
           t + periodDays pt, false⟩) := by
    simp only [borrow, hbal]
    rw [if_neg (not_le.mpr hpos)]
    rw [if_neg (by rintro ⟨hc, -⟩; exact Bool.false_ne_true hc)]
    rw [if_neg (by rintro ⟨-, hc⟩; exact absurd hc (not_lt.mpr hsaved))]
    rw [if_neg (by rintro ⟨-, hc⟩; rw [hopen] at hc; exact lt_irrefl 0 hc)]
    rw [if_congr (Iff.intro (fun hc => hc.2) (fun hc => ⟨by simp, hc⟩)) rfl rfl]
  constructor
  · intro hlim
    constructor
    · rw [key, if_pos hlim]
    · simp only [run]
      rw [key, if_pos hlim]
  · intro heq hgrp
    rw [key, if_neg (not_lt.mpr (le_of_eq heq)), if_neg (not_lt.mpr hgrp)]

/-- Witness for the amended C6: person 1 with B = 1000.00 and 3 UNIT
payments; 1301.00 exceeds the 1300.00 limit and fails with
LIMIT_EXCEEDED (state unchanged); exactly 1300.00 succeeds. -/
theorem c6_witness :
    borrow c4State 5 1 .MAIN 1301 false false = .error .limitExceeded ∧
    run (Op.borrowOp 5 1 .MAIN 1301 false false) c4State = c4State ∧
    borrow c4State 5 1 .MAIN 1300 false false =
      .ok (({ c4State with
          borrowings := c4State.borrowings ++
            [⟨c4State.nextBorrowingId, 1, .MAIN, 1300, round2 (1300 * BORROW_INTEREST_PCT),
              round2 (1300 + round2 (1300 * BORROW_INTEREST_PCT)), .OPEN, 5 + periodDays .MAIN,
              none, none⟩],
          nextBorrowingId := c4State.nextBorrowingId + 1 : State }.addPool .MAIN (-1300)).addLog
          ⟨some 1, .BORROW, 1300⟩,
        ⟨c4State.nextBorrowingId, round2 (1300 + round2 (1300 * BORROW_INTEREST_PCT)),
         5 + periodDays .MAIN, false⟩) := by
  have hbal : c4State.findBalance 1 = some ⟨1, 1000, 0⟩ := rfl
  have h1 := c6_borrow_limit 5 1301 .MAIN hbal (by decide) (by decide) (by norm_num)
  have h2 := c6_borrow_limit 5 1300 .MAIN hbal (by decide) (by decide) (by norm_num)
  have hlim : round2 ((⟨1, 1000, 0⟩ : PersonalBalance).poolBalance .MAIN * (13/10)) < 1301 := by
    norm_num [PersonalBalance.poolBalance, round2]
  have heq : (1300 : ℚ) = round2 ((⟨1, 1000, 0⟩ : PersonalBalance).poolBalance .MAIN * (13/10)) := by
    norm_num [PersonalBalance.poolBalance, round2]
  have hgrp : (1300 : ℚ) ≤ c4State.pools.get .MAIN := by
    norm_num [c4State, GroupPools.get]
  exact ⟨(h1.1 hlim).1, (h1.1 hlim).2, h2.2 heq hgrp⟩

/-! ### Claim C7: the group-funds hard block -/

/-- C7 counterexample: a borrow of 6000.00 against a 5000.00 pool by a
person with fewer than 3 UNIT payments fails with the saved-count error,
not INSUFFICIENT_GROUP_FUNDS — the eligibility checks run first. -/
theorem c7_counterexample :
    borrow c6State 0 1 .MAIN 6000 false false = .error .insufficientSavedCount ∧
    c6State.pools.get .MAIN < 6000 ∧
    Err.insufficientSavedCount ≠ Err.insufficientGroupFunds := by
  refine ⟨?_, by norm_num [c6State, GroupPools.get], by decide⟩
  simp only [borrow, c6State, State.findBalance, List.find?, List.filter]
  norm_num

/-- C7 (amended): whenever the requested amount exceeds the target pool's
balance, borrow never succeeds and the state is unchanged, with or
without adminOverride — the group-liquidity check is a hard block the
override cannot bypass; the INSUFFICIENT_GROUP_FUNDS error is the one
reported whenever the checks before it pass, in particular always under a
valid admin override with a positive amount and an existing balance row. -/
theorem c7_group_funds {st : State} {t p : ℕ} {pt : PoolType} {amt : ℚ} {ov cv : Bool}
    (hgt : st.pools.get pt < amt) :
    (∀ st2 r, borrow st t p pt amt ov cv ≠ .ok (st2, r)) ∧
    run (Op.borrowOp t p pt amt ov cv) st = st ∧
    (∀ personal, st.findBalance p = some personal → 0 < amt → ov = true → cv = true →
      borrow st t p pt amt ov cv = .error .insufficientGroupFunds) := by
  refine ⟨?_, ?_, ?_⟩
  · intro st2 r h
    obtain ⟨_, _, _, hle, _⟩ := borrow_ok h
    exact absurd hle (not_le.mpr hgt)
  · simp only [run]
    cases hb : borrow st t p pt amt ov cv with
    | ok x =>
      obtain ⟨st2, r⟩ := x
      obtain ⟨_, _, _, hle, _⟩ := borrow_ok hb
      exact absurd hle (not_le.mpr hgt)
    | error e => rfl
  · intro personal hbal hpos hov hcv
    subst hov
    subst hcv
    simp only [borrow, hbal]
    rw [if_neg (not_le.mpr hpos)]
    rw [if_neg (by rintro ⟨-, hc⟩; exact hc trivial)]
    rw [if_neg (by rintro ⟨hc, -⟩; exact hc trivial)]
    rw [if_neg (by rintro ⟨hc, -⟩; exact hc trivial)]
    rw [if_neg (by rintro ⟨hc, -⟩; exact hc trivial)]
    rw [if_pos hgt]

/-- Witness for the amended C7: with GroupPool[MAIN] = 5000.00, borrowing
6000.00 under a valid admin override fails with INSUFFICIENT_GROUP_FUNDS
and leaves the state unchanged. -/
theorem c7_witness :
    borrow c6State 0 1 .MAIN 6000 true true = .error .insufficientGroupFunds ∧
    run (Op.borrowOp 0 1 .MAIN 6000 true true) c6State = c6State := by
  have hgt : c6State.pools.get .MAIN < 6000 := by norm_num [c6State, GroupPools.get]
  have h := @c7_group_funds c6State 0 1 .MAIN 6000 true true hgt
  exact ⟨h.2.2 ⟨1, 1000, 0⟩ rfl (by norm_num) rfl rfl, h.2.1⟩

/-! ### Claim C10: payFull with several OPEN borrowings in one pool -/

/-- C10: when the query for the person's OPEN borrowings in a pool
returns `b` first (with possibly more rows behind it), payFull settles
exactly `b`: it returns `b.id` and `b.outstandingAmount`, credits only
that outstanding back to the pool, sets `b` to outstanding 0 / PAID, and
leaves every other borrowing row (by id) completely unchanged. -/
theorem c10_payFull_first {st : State} {p : ℕ} (t : ℕ) {pt : PoolType}
    {b : Borrowing} {rest : List Borrowing}
    (hnodup : (st.borrowings.map fun x => x.id).Nodup)
    (hfilter : st.borrowings.filter (fun x =>
      decide (x.personId = p ∧ x.poolType = pt ∧ x.status = .OPEN)) = b :: rest) :
    payFull st t p pt = .ok ((((st.updateBorrowing b.id fun x =>
        { x with outstandingAmount := 0, status := .PAID, lastPaymentAt := some t }).addPool
          pt b.outstandingAmount).addPayment
          ⟨p, .DEBT_PAYMENT, b.outstandingAmount, none, some b.id⟩).addLog
          ⟨some p, .REPAYMENT, b.outstandingAmount⟩, ⟨b.id, b.outstandingAmount⟩) ∧
    (∀ st2 r, payFull st t p pt = .ok (st2, r) →
      st2.pools.get pt = st.pools.get pt + b.outstandingAmount ∧
      st2.borrowings.find? (fun x => x.id == b.id) =
        some { b with outstandingAmount := 0, status := .PAID, lastPaymentAt := some t } ∧
      ∀ x ∈ st.borrowings, x.id ≠ b.id →
        st2.borrowings.find? (fun y => y.id == x.id) = some x) := by
  have hfind : st.borrowings.find? (fun x =>
      decide (x.personId = p ∧ x.poolType = pt ∧ x.status = .OPEN)) = some b := by
    rw [find?_eq_head_filter, hfilter]
    rfl
  have h1 : payFull st t p pt = .ok ((((st.updateBorrowing b.id fun x =>
      { x with outstandingAmount := 0, status := .PAID, lastPaymentAt := some t }).addPool
        pt b.outstandingAmount).addPayment
        ⟨p, .DEBT_PAYMENT, b.outstandingAmount, none, some b.id⟩).addLog
        ⟨some p, .REPAYMENT, b.outstandingAmount⟩, ⟨b.id, b.outstandingAmount⟩) := by
    simp only [payFull, hfind]
  refine ⟨h1, ?_⟩
  intro st2 r h2
  rw [h1] at h2
  injection h2 with hh
  injection hh with hs hr
  subst hs
  have hbmem : b ∈ st.borrowings := by
    have hm : b ∈ st.borrowings.filter (fun x =>
        decide (x.personId = p ∧ x.poolType = pt ∧ x.status = .OPEN)) := by
      rw [hfilter]
      exact List.mem_cons_self _ _
    exact List.mem_of_mem_filter hm
  refine ⟨by simp, ?_, ?_⟩
  · simp only [State.addLog_borrowings, State.addPayment_borrowings,
      State.addPool_borrowings, State.updateBorrowing_borrowings]
    rw [find_id_map_update _ b.id (fun x =>
      { x with outstandingAmount := 0, status := .PAID, lastPaymentAt := some t })
      (fun x => rfl) b.id, find_id_self hnodup hbmem]
    simp
  · intro x hx hne
    simp only [State.addLog_borrowings, State.addPayment_borrowings,
      State.addPool_borrowings, State.updateBorrowing_borrowings]
    rw [find_id_map_update _ x.id (fun x =>
      { x with outstandingAmount := 0, status := .PAID, lastPaymentAt := some t })
      (fun x => rfl) b.id, find_id_self hnodup hx]
    simp only [Option.map_some']
    rw [if_neg hne]

/-- Person 1 with TWO OPEN MAIN borrowings (ids 0 and 1) — the state a
valid-credential override borrow can reach. -/
def c10State : State :=
  { people := [1],
    balances := [⟨1, 1000, 0⟩],
    pools := ⟨4700, 0⟩,
    borrowings := [⟨0, 1, .MAIN, 100, 10, 110, .OPEN, 35, none, none⟩,
      ⟨1, 1, .MAIN, 200, 20, 220, .OPEN, 35, none, none⟩],
    payments := [],
    summaries := [],
    txLog := [],
    nextBorrowingId := 2 }

/-- Witness for C10: payFull settles only borrowing 0 (the first row),
crediting its 110.00; borrowing 1 stays OPEN at 220.00. -/
theorem c10_witness :
    payFull c10State 6 1 .MAIN = .ok ((((c10State.updateBorrowing 0 fun x =>
        { x with outstandingAmount := 0, status := .PAID, lastPaymentAt := some 6 }).addPool
          .MAIN 110).addPayment ⟨1, .DEBT_PAYMENT, 110, none, some 0⟩).addLog
          ⟨some 1, .REPAYMENT, 110⟩, ⟨0, 110⟩) ∧
    (∀ st2 r, payFull c10State 6 1 .MAIN = .ok (st2, r) →
      st2.borrowings.find? (fun y => y.id == 1) =
        some ⟨1, 1, .MAIN, 200, 20, 220, .OPEN, 35, none, none⟩) := by
  have h := @c10_payFull_first c10State 1 6 .MAIN
    ⟨0, 1, .MAIN, 100, 10, 110, .OPEN, 35, none, none⟩
    [⟨1, 1, .MAIN, 200, 20, 220, .OPEN, 35, none, none⟩] (by decide) rfl
  refine ⟨h.1, ?_⟩
  intro st2 r h2
  exact (h.2 st2 r h2).2.2 ⟨1, 1, .MAIN, 200, 20, 220, .OPEN, 35, none, none⟩
    (by decide) (by decide)

/-! ### Claim C9: the validity fee is charged at most once per day -/

@[simp] lemma GroupPools.get_validity_add_main (g : GroupPools) (a : ℚ) :
    (g.add .MAIN a).get .VALIDITY = g.get .VALIDITY := rfl

@[simp] lemma GroupPools.get_main_add_validity (g : GroupPools) (a : ℚ) :
    (g.add .VALIDITY a).get .MAIN = g.get .MAIN := rfl

@[simp] lemma applyValidityFee_summaries (st : State) (p d : ℕ) :
    (applyValidityFee st p d).summaries = st.summaries := by
  simp [applyValidityFee]

@[simp] lemma applyUnitsAmount_summaries (st : State) (p d u : ℕ) :
    (applyUnitsAmount st p d u).summaries = st.summaries := by
  simp [applyUnitsAmount]

lemma ensureBalance_findSummary (st : State) (p q d : ℕ) :
    (st.ensureBalance p).findSummary q d = st.findSummary q d := by
  unfold State.findSummary
  rw [State.ensureBalance_summaries]

lemma ensureBalance_eq {st : State} {p : ℕ} {pr : PersonalBalance}
    (h : st.findBalance p = some pr) : st.ensureBalance p = st := by
  unfold State.ensureBalance
  rw [h]

/-- A find-by-person query commutes with a balance UPDATE, which keys on
person ids the update preserves. -/
lemma find_balance_map (l : List PersonalBalance) (f : PersonalBalance → PersonalBalance)
    (hf : ∀ r, (f r).personId = r.personId) (p : ℕ) :
    (l.map f).find? (fun r => r.personId == p) =
      (l.find? (fun r => r.personId == p)).map f := by
  induction l with
  | nil => rfl
  | cons a l ih =>
    by_cases hap : a.personId = p
    · rw [List.map_cons, List.find?_cons_of_pos _ (by simp [hf a, hap]),
        List.find?_cons_of_pos _ (by simp [hap])]
      rfl
    · rw [List.map_cons, List.find?_cons_of_neg _ (by simp [hf a, hap]),
        List.find?_cons_of_neg _ (by simp [hap])]
      exact ih


lemma isSome_find_comp2 (l : List PersonalBalance) (p : ℕ)
    (f g : PersonalBalance → PersonalBalance)
    (hf : ∀ x, (f x).personId = x.personId) (hg : ∀ x, (g x).personId = x.personId) :
    (l.find? (((fun x => x.personId == p) ∘ f) ∘ g)).isSome =
      (l.find? (fun x => x.personId == p)).isSome := by
  have hpred : (((fun x : PersonalBalance => x.personId == p) ∘ f) ∘ g) =
      fun x : PersonalBalance => x.personId == p := by
    funext x
    simp [Function.comp_apply, hf, hg]
  rw [hpred]

lemma isSome_find_comp1 (l : List PersonalBalance) (p : ℕ)
    (f : PersonalBalance → PersonalBalance)
    (hf : ∀ x, (f x).personId = x.personId) :
    (l.find? ((fun x => x.personId == p) ∘ f)).isSome =
      (l.find? (fun x => x.personId == p)).isSome := by
  have hpred : ((fun x : PersonalBalance => x.personId == p) ∘ f) =
      fun x : PersonalBalance => x.personId == p := by
    funext x
    simp [Function.comp_apply, hf]
  rw [hpred]

/-- What a missing-day save with payValidity charges: a new summary row
with validityPaid set, one VALIDITY fee into the person's validity
balance and GroupPool[VALIDITY], and an applied validity amount of
exactly VALIDITY_FEE. -/
lemma saveNewDay_true {st0 st1 : State} {p d u : ℕ} {r : SaveResp}
    (h : saveNewDay st0 p d u true = .ok (st1, r)) :
    st1.summaries = st0.summaries ++ [⟨p, d, true, u, 0⟩] ∧
    st1.pools.get .VALIDITY = st0.pools.get .VALIDITY + VALIDITY_FEE ∧
    (st1.balances.find? (fun x => x.personId == p)).isSome =
      (st0.balances.find? (fun x => x.personId == p)).isSome ∧
    r.appliedValidityAmount = VALIDITY_FEE := by
  simp only [saveNewDay, saveFinish] at h
  repeat' split at h
  all_goals first
    | exact Except.noConfusion h
    | exact absurd trivial (by assumption)
    | (simp only [Except.ok.injEq, Prod.mk.injEq] at h
       obtain ⟨h1, h2⟩ := h
       subst h1
       refine ⟨by simp, by simp [applyValidityFee, applyUnitsAmount], ?_, by rw [← h2]⟩
       simp only [applyValidityFee, applyUnitsAmount, State.addLog_balances,
         State.addPool_balances, State.addPayment_balances, State.insertSummary_balances,
         State.creditMain_balances, State.creditValidity_balances,
         List.map_map, List.find?_map, Option.isSome_map']
       exact isSome_find_comp1 _ p _ (fun x => by
         try simp only [Function.comp_apply]
         repeat' split
         all_goals rfl))

/-- A save against an existing summary with the validity already paid and
zero units applies nothing at all: the state is returned untouched and
the applied validity amount is 0. -/
lemma saveExistingDay_validityPaid_noop {st0 st2 : State} {p d u1 : ℕ} {r : SaveResp}
    (hu : ¬ 4 < u1)
    (h : saveExistingDay st0 p d 0 true ⟨p, d, true, u1, 0⟩ = .ok (st2, r)) :
    st2 = st0 ∧ r.appliedValidityAmount = 0 := by
  simp only [saveExistingDay, saveFinish] at h
  rw [if_neg (by simpa using hu)] at h
  simp only [lt_irrefl, if_false, not_true, and_false, false_and,
    Nat.cast_zero, zero_mul, round2_zero, add_zero, zero_add, Except.ok.injEq,
    Prod.mk.injEq] at h
  obtain ⟨h1, h2⟩ := h
  exact ⟨h1.symm, by rw [← h2]⟩

/-- C9: from a store with no summary for (p, d), a save with
payValidity=true charges VALIDITY_FEE once (GroupPool[VALIDITY] rises by
exactly the fee); a second save with payValidity=true for the same person
and date applies a validity amount of 0 and is a complete no-op — it
leaves the whole state, in particular validitySavingsBalance,
GroupPool[VALIDITY] and the transaction log, unchanged (a save applying
nothing writes no SAVING log entry). -/
theorem c9_validity_once {st : State} {t p d u1 : ℕ} {pr : PersonalBalance}
    {st1 st2 : State} {r1 r2 : SaveResp}
    (hrow : st.findBalance p = some pr)
    (hno : st.findSummary p d = none)
    (hu : u1 ≤ 4)
    (h1 : save st t p u1 true (some d) = .ok (st1, r1))
    (h2 : save st1 t p 0 true (some d) = .ok (st2, r2)) :
    r1.appliedValidityAmount = VALIDITY_FEE ∧
    st1.pools.get .VALIDITY = st.pools.get .VALIDITY + VALIDITY_FEE ∧
    r2.appliedValidityAmount = 0 ∧
    st2 = st1 := by
  have hst0 : st.ensureBalance p = st := ensureBalance_eq hrow
  have e1 : save st t p u1 true (some d) = saveNewDay st p d u1 true := by
    simp only [save]
    rw [Option.getD_some, if_neg (not_lt.mpr hu), hst0, hno]
  rw [e1] at h1
  obtain ⟨F1, F3, Fsome, F4⟩ := saveNewDay_true h1
  have hrow1 : (st1.findBalance p).isSome := by
    unfold State.findBalance
    rw [Fsome]
    unfold State.findBalance at hrow
    rw [hrow]
    rfl
  obtain ⟨pr1, hpr1⟩ := Option.isSome_iff_exists.mp hrow1
  have hb1 : st1.ensureBalance p = st1 := ensureBalance_eq hpr1
  have hsum1 : st1.findSummary p d = some ⟨p, d, true, u1, 0⟩ := by
    unfold State.findSummary
    rw [F1, List.find?_append]
    unfold State.findSummary at hno
    rw [hno]
    simp
  have e2 : save st1 t p 0 true (some d) =
      saveExistingDay st1 p d 0 true ⟨p, d, true, u1, 0⟩ := by
    simp only [save]
    rw [Option.getD_some, if_neg (by norm_num), hb1, hsum1]
  rw [e2] at h2
  obtain ⟨hst2, hr2⟩ := saveExistingDay_validityPaid_noop (by omega) h2
  exact ⟨F4, F3, hr2, hst2⟩

/-- One member with a zeroed balance row, no summaries and empty pools. -/
def c9State : State :=
  { people := [1], balances := [⟨1, 0, 0⟩], pools := ⟨0, 0⟩,
    borrowings := [], payments := [], summaries := [], txLog := [],
    nextBorrowingId := 0 }

/-- The state after the first validity payment of day 0: one VALIDITY fee
credited to the person and the pool, one summary row, one SAVING log. -/
def c9State1 : State :=
  { people := [1], balances := [⟨1, 0, 100⟩], pools := ⟨0, 100⟩,
    borrowings := [],
    payments := [⟨1, .VALIDITY, 100, some 0, none⟩],
    summaries := [⟨1, 0, true, 0, 0⟩],
    txLog := [⟨some 1, .SAVING, 100⟩],
    nextBorrowingId := 0 }

/-- Witness for C9: concrete double validity save on day 0 — the first
charges 100, the second applies 0 and returns the state unchanged. -/
theorem c9_witness :
    ({ appliedUnits := 0, appliedUnitsAmount := 0, appliedValidityAmount := 100 } : SaveResp).appliedValidityAmount = VALIDITY_FEE ∧
    c9State1.pools.get .VALIDITY = c9State.pools.get .VALIDITY + VALIDITY_FEE ∧
    ({ appliedUnits := 0, appliedUnitsAmount := 0, appliedValidityAmount := 0 } : SaveResp).appliedValidityAmount = 0 ∧
    c9State1 = c9State1 := by
  have hrow : c9State.findBalance 1 = some ⟨1, 0, 0⟩ := rfl
  have hno : c9State.findSummary 1 0 = none := rfl
  have h1 : save c9State 10 1 0 true (some 0) =
      .ok (c9State1, { appliedUnits := 0, appliedUnitsAmount := 0, appliedValidityAmount := 100 }) := by
    simp only [save, saveNewDay, saveFinish, applyValidityFee, applyUnitsAmount,
      c9State, c9State1, State.ensureBalance, State.findBalance, State.findSummary,
      State.insertSummary, State.creditValidity, State.creditMain, State.addPayment,
      State.addPool, State.addLog, GroupPools.add, List.find?, List.map,
      State.mk.injEq, GroupPools.mk.injEq]
    norm_num [round2, VALIDITY_FEE, UNIT_PRICE]
  have h2 : save c9State1 10 1 0 true (some 0) =
      .ok (c9State1, { appliedUnits := 0, appliedUnitsAmount := 0, appliedValidityAmount := 0 }) := by
    simp only [save, saveExistingDay, saveFinish, applyValidityFee, applyUnitsAmount,
      c9State1, State.ensureBalance, State.findBalance, State.findSummary,
      State.updateSummary, State.insertSummary, State.creditValidity, State.creditMain,
      State.addPayment, State.addPool, State.addLog, GroupPools.add, List.find?, List.map,
      State.mk.injEq, GroupPools.mk.injEq]
    norm_num [round2, VALIDITY_FEE, UNIT_PRICE]
  exact c9_validity_once hrow hno (by decide) h1 h2

/-! ### C8: the daily 4-unit cap -/

/-- Two daily-summary rows that would violate the (person_id, date)
uniqueness of daily_summary. -/
def sumClash (a b : DailySummary) : Prop :=
  a.personId = b.personId ∧ a.date = b.date

/-- Every daily_summary row respects the 4-unit daily cap. -/
def CapOK (st : State) : Prop := ∀ s ∈ st.summaries, s.unitsCount ≤ 4

/-- No two daily_summary rows share (person_id, date). -/
def SummariesUnique (st : State) : Prop :=
  st.summaries.Pairwise fun a b => ¬ sumClash a b

lemma cap_congr {st st2 : State} (hs : st2.summaries = st.summaries)
    (h : CapOK st ∧ SummariesUnique st) : CapOK st2 ∧ SummariesUnique st2 := by
  unfold CapOK SummariesUnique at *
  rw [hs]
  exact h

lemma summary_unique_match {l : List DailySummary} {p d : ℕ} {daily : DailySummary}
    (hU : l.Pairwise fun a b => ¬ sumClash a b)
    (hfind : l.find? (fun s => s.personId == p && s.date == d) = some daily)
    {s : DailySummary} (hs : s ∈ l) (hp : s.personId = p) (hd : s.date = d) : s = daily := by
  have hdm : daily ∈ l := List.mem_of_find?_eq_some hfind
  have hdp := List.find?_some hfind
  simp only [Bool.and_eq_true, beq_iff_eq] at hdp
  by_contra hne
  have hsym : Symmetric fun a b : DailySummary => ¬ sumClash a b := by
    intro a b hab hcl
    exact hab ⟨hcl.1.symm, hcl.2.symm⟩
  exact (hU.forall hsym hs hdm hne) ⟨by rw [hp, hdp.1], by rw [hd, hdp.2]⟩

lemma sumUnique_map {l : List DailySummary} {f : DailySummary → DailySummary}
    (hf : ∀ s ∈ l, (f s).personId = s.personId ∧ (f s).date = s.date)
    (h : l.Pairwise fun a b => ¬ sumClash a b) :
    (l.map f).Pairwise fun a b => ¬ sumClash a b := by
  rw [List.pairwise_map]
  refine h.imp_of_mem ?_
  intro a b ha hb hab hcl
  exact hab ⟨by rw [← (hf a ha).1, ← (hf b hb).1]; exact hcl.1,
             by rw [← (hf a ha).2, ← (hf b hb).2]; exact hcl.2⟩

/-- The workhorse for the existing-day branches: a keyed update of the
(p, d) row keeps the cap (given the updated row respects it), keeps the
key uniqueness, and the (p, d) lookup now returns the updated row. -/
lemma cap_unique_find_update {l : List DailySummary} {p d : ℕ} {daily : DailySummary}
    (g : DailySummary → DailySummary)
    (hOK : ∀ s ∈ l, s.unitsCount ≤ 4)
    (hU : l.Pairwise fun a b => ¬ sumClash a b)
    (hfind : l.find? (fun s => s.personId == p && s.date == d) = some daily)
    (hg : ∀ s, (g s).personId = s.personId ∧ (g s).date = s.date)
    (hcap : (g daily).unitsCount ≤ 4) :
    (∀ s ∈ l.map fun s => if s.personId = p ∧ s.date = d then g s else s, s.unitsCount ≤ 4) ∧
    ((l.map fun s => if s.personId = p ∧ s.date = d then g s else s).Pairwise
      fun a b => ¬ sumClash a b) ∧
    (l.map fun s => if s.personId = p ∧ s.date = d then g s else s).find?
      (fun s => s.personId == p && s.date == d) = some (g daily) := by
  have hdp := List.find?_some hfind
  simp only [Bool.and_eq_true, beq_iff_eq] at hdp
  refine ⟨?_, ?_, ?_⟩
  · intro s2 hs2
    obtain ⟨s, hsl, hse⟩ := List.mem_map.mp hs2
    by_cases hm : s.personId = p ∧ s.date = d
    · rw [if_pos hm] at hse
      have hsd : s = daily := summary_unique_match hU hfind hsl hm.1 hm.2
      rw [← hse, hsd]
      exact hcap
    · rw [if_neg hm] at hse
      rw [← hse]
      exact hOK s hsl
  · refine sumUnique_map ?_ hU
    intro s hsl
    by_cases hm : s.personId = p ∧ s.date = d
    · rw [if_pos hm]; exact ⟨(hg s).1, (hg s).2⟩
    · rw [if_neg hm]; exact ⟨rfl, rfl⟩
  · rw [List.find?_map]
    have hpred : ((fun s : DailySummary => s.personId == p && s.date == d) ∘
        fun s => if s.personId = p ∧ s.date = d then g s else s) =
        fun s : DailySummary => s.personId == p && s.date == d := by
      funext s
      by_cases hm : s.personId = p ∧ s.date = d
      · simp [Function.comp_apply, hm, (hg s).1, (hg s).2]
      · simp [Function.comp_apply, hm]
    rw [hpred, hfind, Option.map_some']
    rw [if_pos ⟨hdp.1, hdp.2⟩]

/-- Inserting the first row for a fresh (p, d) key keeps the cap and the
key uniqueness. -/
lemma cap_unique_insert {l : List DailySummary} {p d : ℕ} {row : DailySummary}
    (hOK : ∀ s ∈ l, s.unitsCount ≤ 4)
    (hU : l.Pairwise fun a b => ¬ sumClash a b)
    (hnone : l.find? (fun s => s.personId == p && s.date == d) = none)
    (hrow : row.unitsCount ≤ 4) (hp : row.personId = p) (hd : row.date = d) :
    (∀ s ∈ l ++ [row], s.unitsCount ≤ 4) ∧
    ((l ++ [row]).Pairwise fun a b => ¬ sumClash a b) := by
  constructor
  · intro s hs
    rcases List.mem_append.mp hs with h1 | h1
    · exact hOK s h1
    · rw [List.mem_singleton.mp h1]; exact hrow
  · rw [List.pairwise_append]
    refine ⟨hU, List.pairwise_singleton _ _, ?_⟩
    intro a ha b hb hcl
    rw [List.mem_singleton.mp hb] at hcl
    have hnp := List.find?_eq_none.mp hnone a ha
    simp only [Bool.and_eq_true, beq_iff_eq, not_and] at hnp
    exact absurd (hcl.2.trans hd) (hnp (hcl.1.trans hp))

/-- The missing-day save branch appends exactly one new summary row for
(p, d), carrying the requested units and no fine. -/
lemma saveNewDay_summaries {st0 st2 : State} {p d u : ℕ} {pv : Bool} {r : SaveResp}
    (h : saveNewDay st0 p d u pv = .ok (st2, r)) :
    st2.summaries = st0.summaries ++ [⟨p, d, pv, u, 0⟩] := by
  simp only [saveNewDay, saveFinish] at h
  repeat' split at h
  all_goals first
    | exact Except.noConfusion h
    | (simp only [Except.ok.injEq, Prod.mk.injEq] at h
       obtain ⟨h1, h2⟩ := h
       subst h1
       simp)

/-- The missing-day retroactive branch appends exactly one new summary
row for (p, d) with the requested units (and whatever fine it charged). -/
lemma retroNewDay_summaries {st0 st2 : State} {p d u : ℕ} {pv : Bool} {r : RetroResp}
    (h : retroNewDay st0 p d u pv = .ok (st2, r)) :
    ∃ q : ℚ, st2.summaries = st0.summaries ++ [⟨p, d, pv, u, q⟩] := by
  simp only [retroNewDay, retroFinish] at h
  repeat' split at h
  all_goals first
    | exact Except.noConfusion h
    | (simp only [Except.ok.injEq, Prod.mk.injEq] at h
       obtain ⟨h1, h2⟩ := h
       subst h1
       refine ⟨if 0 < u then FINE_AMOUNT else 0, ?_⟩
       split <;> simp_all)

/-- The existing-day save branch can only succeed under the daily cap,
and it preserves the cap and the (person, date) key uniqueness. -/
lemma saveExistingDay_cap {st0 st2 : State} {p d u : ℕ} {pv : Bool}
    {daily : DailySummary} {r : SaveResp}
    (hOK : CapOK st0) (hU : SummariesUnique st0)
    (hfind : st0.findSummary p d = some daily)
    (h : saveExistingDay st0 p d u pv daily = .ok (st2, r)) :
    daily.unitsCount + u ≤ 4 ∧ CapOK st2 ∧ SummariesUnique st2 := by
  unfold CapOK SummariesUnique at *
  simp only [State.findSummary] at hfind
  have hdmem : daily ∈ st0.summaries := List.mem_of_find?_eq_some hfind
  have hdcap : daily.unitsCount ≤ 4 := hOK daily hdmem
  simp only [saveExistingDay, saveFinish] at h
  repeat' split at h
  all_goals first
    | exact Except.noConfusion h
    | (simp only [Except.ok.injEq, Prod.mk.injEq] at h
       obtain ⟨h1, h2⟩ := h
       subst h1
       try simp only [applyValidityFee_summaries, applyUnitsAmount_summaries,
         State.addLog_summaries, State.updateSummary_summaries]
       refine ⟨by omega, ?_⟩
       first
         | exact ⟨hOK, hU⟩
         | (obtain ⟨c1, c2, -⟩ := cap_unique_find_update
              (g := fun s => { s with validityPaid := true }) hOK hU hfind
              (fun s => ⟨rfl, rfl⟩) hdcap
            exact ⟨c1, c2⟩)
         | (obtain ⟨c1, c2, -⟩ := cap_unique_find_update
              (g := fun s => { s with unitsCount := s.unitsCount + u }) hOK hU hfind
              (fun s => ⟨rfl, rfl⟩) (show daily.unitsCount + u ≤ 4 by omega)
            exact ⟨c1, c2⟩)
         | (obtain ⟨c1, c2, cf⟩ := cap_unique_find_update
              (g := fun s => { s with validityPaid := true }) hOK hU hfind
              (fun s => ⟨rfl, rfl⟩) hdcap
            obtain ⟨e1, e2, -⟩ := cap_unique_find_update
              (g := fun s => { s with unitsCount := s.unitsCount + u }) c1 c2 cf
              (fun s => ⟨rfl, rfl⟩) (show daily.unitsCount + u ≤ 4 by omega)
            exact ⟨e1, e2⟩))

/-- The existing-day retroactive branch can only succeed under the daily
cap, and it preserves the cap and the (person, date) key uniqueness. -/
lemma retroExistingDay_cap {st0 st2 : State} {p d u : ℕ} {pv : Bool}
    {daily : DailySummary} {r : RetroResp}
    (hOK : CapOK st0) (hU : SummariesUnique st0)
    (hfind : st0.findSummary p d = some daily)
    (h : retroExistingDay st0 p d u pv daily = .ok (st2, r)) :
    daily.unitsCount + u ≤ 4 ∧ CapOK st2 ∧ SummariesUnique st2 := by
  unfold CapOK SummariesUnique at *
  simp only [State.findSummary] at hfind
  have hdmem : daily ∈ st0.summaries := List.mem_of_find?_eq_some hfind
  have hdcap : daily.unitsCount ≤ 4 := hOK daily hdmem
  simp only [retroExistingDay, retroFinish] at h
  repeat' split at h
  all_goals first
    | exact Except.noConfusion h
    | (simp only [Except.ok.injEq, Prod.mk.injEq] at h
       obtain ⟨h1, h2⟩ := h
       subst h1
       try simp only [applyValidityFee_summaries, applyUnitsAmount_summaries,
         State.addLog_summaries, State.addPool_summaries, State.addPayment_summaries,
         State.updateSummary_summaries]
       refine ⟨by omega, ?_⟩
       first
         | (obtain ⟨c1, c2, -⟩ := cap_unique_find_update
              (g := fun s => { s with unitsCount := s.unitsCount + u, fineAmount := s.fineAmount + FINE_AMOUNT }) hOK hU hfind
              (fun s => ⟨rfl, rfl⟩) (show daily.unitsCount + u ≤ 4 by omega)
            exact ⟨c1, c2⟩)
         | (obtain ⟨c1, c2, -⟩ := cap_unique_find_update
              (g := fun s => { s with unitsCount := s.unitsCount + u, fineAmount := s.fineAmount + 0 }) hOK hU hfind
              (fun s => ⟨rfl, rfl⟩) (show daily.unitsCount + u ≤ 4 by omega)
            exact ⟨c1, c2⟩)
         | (obtain ⟨c1, c2, cf⟩ := cap_unique_find_update
              (g := fun s => { s with unitsCount := s.unitsCount + u, fineAmount := s.fineAmount + FINE_AMOUNT }) hOK hU hfind
              (fun s => ⟨rfl, rfl⟩) (show daily.unitsCount + u ≤ 4 by omega)
            obtain ⟨e1, e2, -⟩ := cap_unique_find_update
              (g := fun s => { s with validityPaid := true }) c1 c2 cf
              (fun s => ⟨rfl, rfl⟩) (show daily.unitsCount + u ≤ 4 by omega)
            exact ⟨e1, e2⟩)
         | (obtain ⟨c1, c2, cf⟩ := cap_unique_find_update
              (g := fun s => { s with unitsCount := s.unitsCount + u, fineAmount := s.fineAmount + 0 }) hOK hU hfind
              (fun s => ⟨rfl, rfl⟩) (show daily.unitsCount + u ≤ 4 by omega)
            obtain ⟨e1, e2, -⟩ := cap_unique_find_update
              (g := fun s => { s with validityPaid := true }) c1 c2 cf
              (fun s => ⟨rfl, rfl⟩) (show daily.unitsCount + u ≤ 4 by omega)
            exact ⟨e1, e2⟩))

/-- The missing-day save branch keeps the cap and uniqueness. -/
lemma saveNewDay_cap {st0 st2 : State} {p d u : ℕ} {pv : Bool} {r : SaveResp}
    (h4 : u ≤ 4) (hOK : CapOK st0) (hU : SummariesUnique st0)
    (hnone : st0.findSummary p d = none)
    (h : saveNewDay st0 p d u pv = .ok (st2, r)) :
    CapOK st2 ∧ SummariesUnique st2 := by
  have hsum := saveNewDay_summaries h
  unfold CapOK SummariesUnique at *
  rw [hsum]
  simp only [State.findSummary] at hnone
  exact cap_unique_insert hOK hU hnone h4 rfl rfl

/-- The missing-day retroactive branch keeps the cap and uniqueness. -/
lemma retroNewDay_cap {st0 st2 : State} {p d u : ℕ} {pv : Bool} {r : RetroResp}
    (h4 : u ≤ 4) (hOK : CapOK st0) (hU : SummariesUnique st0)
    (hnone : st0.findSummary p d = none)
    (h : retroNewDay st0 p d u pv = .ok (st2, r)) :
    CapOK st2 ∧ SummariesUnique st2 := by
  obtain ⟨q, hsum⟩ := retroNewDay_summaries h
  unfold CapOK SummariesUnique at *
  rw [hsum]
  simp only [State.findSummary] at hnone
  exact cap_unique_insert hOK hU hnone h4 rfl rfl

/-- A successful save keeps every summary at or under the cap and keeps
(person, date) unique. -/
lemma save_cap {st st2 : State} {t p u : ℕ} {pv : Bool} {ed : Option ℕ} {r : SaveResp}
    (hOK : CapOK st) (hU : SummariesUnique st)
    (h : save st t p u pv ed = .ok (st2, r)) : CapOK st2 ∧ SummariesUnique st2 := by
  have hOK0 : CapOK (st.ensureBalance p) := by
    unfold CapOK at *
    rw [State.ensureBalance_summaries]
    exact hOK
  have hU0 : SummariesUnique (st.ensureBalance p) := by
    unfold SummariesUnique at *
    rw [State.ensureBalance_summaries]
    exact hU
  simp only [save] at h
  split at h
  · exact Except.noConfusion h
  next h4 =>
  split at h
  next hnone => exact saveNewDay_cap (by omega) hOK0 hU0 hnone h
  next daily hfind => exact (saveExistingDay_cap hOK0 hU0 hfind h).2

/-- A successful retroactiveFill keeps every summary at or under the cap
and keeps (person, date) unique. -/
lemma retro_cap {st st2 : State} {t p d u : ℕ} {pv : Bool} {r : RetroResp}
    (hOK : CapOK st) (hU : SummariesUnique st)
    (h : retroactiveFill st t p d u pv = .ok (st2, r)) :
    CapOK st2 ∧ SummariesUnique st2 := by
  have hOK0 : CapOK (st.ensureBalance p) := by
    unfold CapOK at *
    rw [State.ensureBalance_summaries]
    exact hOK
  have hU0 : SummariesUnique (st.ensureBalance p) := by
    unfold SummariesUnique at *
    rw [State.ensureBalance_summaries]
    exact hU
  simp only [retroactiveFill] at h
  split at h
  · exact Except.noConfusion h
  next hdt =>
  split at h
  · exact Except.noConfusion h
  next h4 =>
  split at h
  · exact Except.noConfusion h
  next hnc =>
  split at h
  next hnone => exact retroNewDay_cap (by omega) hOK0 hU0 hnone h
  next daily hfind => exact (retroExistingDay_cap hOK0 hU0 hfind h).2

lemma sweepStep_summaries (rn : Borrowing → Option Borrowing) (st : State) (b : Borrowing) :
    (sweepStep rn st b).summaries = st.summaries := by
  unfold sweepStep
  split <;> simp

lemma sweepFold_summaries (rn : Borrowing → Option Borrowing) (l : List Borrowing) (st : State) :
    (l.foldl (sweepStep rn) st).summaries = st.summaries := by
  induction l generalizing st with
  | nil => rfl
  | cons b l ih =>
    rw [List.foldl_cons, ih, sweepStep_summaries]

lemma sweepRun_summaries (rn : Borrowing → Option Borrowing) (st : State) :
    (sweepRun rn st).summaries = st.summaries :=
  sweepFold_summaries rn _ st

lemma deleteMember_sum {st st2 : State} {p : ℕ} {cv : Bool} {u : Unit}
    (h : deleteMember st p cv = .ok (st2, u)) :
    st2.summaries = st.summaries.filter fun s2 => decide (s2.personId ≠ p) := by
  simp only [deleteMember] at h
  split at h
  · exact Except.noConfusion h
  split at h
  · exact Except.noConfusion h
  split at h
  · exact Except.noConfusion h
  injection h with hh
  injection hh with h1 h2
  rw [← h1]

lemma resetAll_sum {st st2 : State} {cv : Bool} {u : Unit}
    (h : resetAll st cv = .ok (st2, u)) : st2.summaries = [] := by
  simp only [resetAll] at h
  split at h
  · exact Except.noConfusion h
  injection h with hh
  injection hh with h1 h2
  rw [← h1]

/-- Every single operation of the ledger core preserves the daily cap and
the (person, date) uniqueness of daily_summary. -/
lemma run_cap (op : Op) (st : State) (hOK : CapOK st) (hU : SummariesUnique st) :
    CapOK (run op st) ∧ SummariesUnique (run op st) := by
  cases op with
  | saveOp t p u pv d =>
    simp only [run]
    cases hs : save st t p u pv d with
    | error e => exact ⟨hOK, hU⟩
    | ok x =>
      obtain ⟨st2, r⟩ := x
      exact save_cap hOK hU hs
  | retroOp t p d u pv =>
    simp only [run]
    cases hs : retroactiveFill st t p d u pv with
    | error e => exact ⟨hOK, hU⟩
    | ok x =>
      obtain ⟨st2, r⟩ := x
      exact retro_cap hOK hU hs
  | borrowOp t p pt a ov cv =>
    simp only [run]
    cases hs : borrow st t p pt a ov cv with
    | error e => exact ⟨hOK, hU⟩
    | ok x =>
      obtain ⟨st2, r⟩ := x
      obtain ⟨personal, hbal, hpos, hgrp, hovcv, helig, hst2, hr⟩ := borrow_ok hs
      subst hst2
      exact cap_congr (by simp) ⟨hOK, hU⟩
  | repayOp t p bid a =>
    simp only [run]
    cases hs : repay st t p bid a with
    | error e => exact ⟨hOK, hU⟩
    | ok x =>
      obtain ⟨st2, r⟩ := x
      obtain ⟨b, hfind, hbst, hbper, hle, hpos, hst2, hrr⟩ := repay_ok hs
      subst hst2
      exact cap_congr (by simp) ⟨hOK, hU⟩
  | payFullOp t p pt =>
    simp only [run]
    cases hs : payFull st t p pt with
    | error e => exact ⟨hOK, hU⟩
    | ok x =>
      obtain ⟨st2, r⟩ := x
      obtain ⟨b, hfind, hst2, hrr⟩ := payFull_ok hs
      subst hst2
      exact cap_congr (by simp) ⟨hOK, hU⟩
  | penaltiesStandaloneOp n =>
    exact cap_congr (sweepRun_summaries _ _) ⟨hOK, hU⟩
  | penaltiesAdminOp n =>
    exact cap_congr (sweepRun_summaries _ _) ⟨hOK, hU⟩
  | deleteMemberOp p cv =>
    simp only [run]
    cases hs : deleteMember st p cv with
    | error e => exact ⟨hOK, hU⟩
    | ok x =>
      obtain ⟨st2, r⟩ := x
      have hsum := deleteMember_sum hs
      constructor
      · intro s hsm
        rw [hsum] at hsm
        exact hOK s (List.mem_of_mem_filter hsm)
      · unfold SummariesUnique
        rw [hsum]
        exact hU.sublist (List.filter_sublist _)
  | resetAllOp cv =>
    simp only [run]
    cases hs : resetAll st cv with
    | error e => exact ⟨hOK, hU⟩
    | ok x =>
      obtain ⟨st2, r⟩ := x
      have hsum := resetAll_sum hs
      exact ⟨fun s hsm => absurd (hsum ▸ hsm) (List.not_mem_nil s),
             by unfold SummariesUnique; rw [hsum]; exact List.Pairwise.nil⟩

/-- Preservation over a whole sequence of operations. -/
lemma runAll_cap (ops : List Op) (st : State) (hOK : CapOK st) (hU : SummariesUnique st) :
    CapOK (runAll ops st) ∧ SummariesUnique (runAll ops st) := by
  induction ops generalizing st with
  | nil => exact ⟨hOK, hU⟩
  | cons op ops ih =>
    have h1 := run_cap op st hOK hU
    exact ih (run op st) h1.1 h1.2

/-- C8: across any sequence of operations the unitsCount of every
daily_summary row stays at or under 4 (given the cap and the
(person, date) key uniqueness held initially); and a save or
retroactiveFill whose in-range units request would push the (p, d) row
past 4 fails with the daily-cap error and, since the transaction rolls
back, leaves the whole state — balances, pools and summaries — exactly
unchanged. -/
theorem c8_daily_cap (ops : List Op) {st : State} (t : ℕ) {p d u : ℕ} {pv : Bool}
    {daily : DailySummary}
    (hOK : CapOK st) (hU : SummariesUnique st)
    (hfind : st.findSummary p d = some daily) (hu : u ≤ 4) (hdt : d < t)
    (hover : 4 < daily.unitsCount + u) :
    (CapOK (runAll ops st) ∧ SummariesUnique (runAll ops st)) ∧
    save st t p u pv (some d) = .error .dailyCapExceeded ∧
    run (.saveOp t p u pv (some d)) st = st ∧
    retroactiveFill st t p d u pv = .error .dailyCapExceeded ∧
    run (.retroOp t p d u pv) st = st := by
  have hfind0 : (st.ensureBalance p).findSummary p d = some daily := by
    rw [ensureBalance_findSummary]
    exact hfind
  have hsave : save st t p u pv (some d) = .error .dailyCapExceeded := by
    simp only [save, Option.getD_some]
    rw [if_neg (by omega), hfind0]
    simp only [saveExistingDay]
    rw [if_pos hover]
  have hfindl : st.summaries.find? (fun s => s.personId == p && s.date == d) = some daily := by
    simpa only [State.findSummary] using hfind
  have hu0 : 0 < u := by
    have hdcap : daily.unitsCount ≤ 4 := hOK daily (List.mem_of_find?_eq_some hfindl)
    omega
  have hretro : retroactiveFill st t p d u pv = .error .dailyCapExceeded := by
    simp only [retroactiveFill]
    rw [if_neg (by omega), if_neg (by omega), if_neg (fun hc => by omega), hfind0]
    simp only [retroExistingDay]
    rw [if_pos hover]
  refine ⟨runAll_cap ops st hOK hU, hsave, ?_, hretro, ?_⟩
  · simp only [run, hsave]
  · simp only [run, hretro]

/-- A seeded store with three units already saved by person 1 on day 0,
satisfying the cap and the (person, date) uniqueness. -/
def c8State : State :=
  { people := [1], balances := [⟨1, 1500, 100⟩], pools := ⟨1500, 100⟩,
    borrowings := [], payments := [],
    summaries := [⟨1, 0, true, 3, 0⟩],
    txLog := [], nextBorrowingId := 0 }

/-- Witness for C8: with 3 units saved on day 0, requesting 2 more on
that date trips the daily-cap error in both save and retroactiveFill and
leaves the store untouched, and the cap invariant survives a further
operation sequence. -/
theorem c8_witness :
    (CapOK (runAll [Op.saveOp 10 1 1 false (some 0)] c8State) ∧
      SummariesUnique (runAll [Op.saveOp 10 1 1 false (some 0)] c8State)) ∧
    save c8State 10 1 2 false (some 0) = .error .dailyCapExceeded ∧
    run (.saveOp 10 1 2 false (some 0)) c8State = c8State ∧
    retroactiveFill c8State 10 1 0 2 false = .error .dailyCapExceeded ∧
    run (.retroOp 10 1 0 2 false) c8State = c8State :=
  c8_daily_cap [Op.saveOp 10 1 1 false (some 0)] 10
    (by intro s hs; simp only [c8State, List.mem_singleton] at hs; subst hs; decide)
    (by unfold SummariesUnique c8State; exact List.pairwise_singleton _ _)
    (rfl : c8State.findSummary 1 0 = some ⟨1, 0, true, 3, 0⟩)
    (by decide) (by decide) (by decide)

end GroupSavings
